import Mathlib

/-!
Verification of the Browser Resource Pool and Session Rotation Engine
of the apify-js SDK (version 0.17.1).

The repository ships only the type declarations of the two modules
(`SessionPool` in the published typings and `PuppeteerPool` in
`types/puppeteer_pool.d.ts`), so the operational behaviour of every
method is modelled from the natural-language specification, staying
faithful to the declared data model (field names, method names and the
behaviour stated in the declaration doc comments, which are part of the
shipped sources and take precedence where they speak).

Time is modelled as an explicit `now : Nat` parameter (milliseconds of
wall clock), randomness as an explicit `r : Nat` argument feeding the
random index, and the external key-value store as an explicit
`Option` snapshot argument.
-/

set_option autoImplicit false

namespace Apify

/-- Modelled from the spec: per-session expiry thresholds
(`sessionOptions.maxAgeSecs/maxUsageCount/maxErrorScore`, spec section 6);
the concrete `Session` mutation logic is absent from the shipped sources. -/
structure SessionOptions where
  maxAgeSecs : Nat
  maxUsageCount : Nat
  maxErrorScore : Nat
  errorScoreDecrement : Nat
deriving Repr, DecidableEq

/-- Default thresholds of the session options (spec section 6 and the
`SessionPool` usage example in the shipped typings). -/
def defaultSessionOptions : SessionOptions :=
  { maxAgeSecs := 3000, maxUsageCount := 50, maxErrorScore := 3, errorScoreDecrement := 1 }

/-- Modelled from the spec: the `Session` entity (spec section 3), whose
implementation module is absent from the shipped sources.  Identity is the
opaque `id`; health counters are `usageCount`, `errorScore`, `createdAt`
and their limits; `retired` is the flag set by `retire()` which marks the
session permanently unusable (spec section 4.1). -/
structure Session where
  id : Nat
  createdAt : Nat
  maxAgeSecs : Nat
  usageCount : Nat
  maxUsageCount : Nat
  errorScore : Nat
  errorScoreDecrement : Nat
  maxErrorScore : Nat
  retired : Bool
deriving Repr, DecidableEq

/-- Modelled from the spec: `isUsable()` is true iff not retired,
age below `maxAgeSecs`, usage count below `maxUsageCount` and error
score below `maxErrorScore` (spec section 4.1). -/
def Session.isUsable (s : Session) (now : Nat) : Bool :=
  !s.retired && decide (now - s.createdAt < s.maxAgeSecs)
    && decide (s.usageCount < s.maxUsageCount)
    && decide (s.errorScore < s.maxErrorScore)

/-- Modelled from the spec: `markGood()` records a successful use,
incrementing the usage count and decaying the error score
(spec section 4.1; the decay floor at zero uses truncated subtraction). -/
def Session.markGood (s : Session) : Session :=
  { s with usageCount := s.usageCount + 1,
           errorScore := s.errorScore - s.errorScoreDecrement }

/-- Modelled from the spec: `markBad()` records a failure by incrementing
the error score by a fixed weight (spec section 4.1). -/
def Session.markBad (s : Session) : Session :=
  { s with errorScore := s.errorScore + 1 }

/-- Modelled from the spec: `retire()` immediately marks the session
permanently unusable; idempotent (spec section 4.1). -/
def Session.retire (s : Session) : Session :=
  { s with retired := true }

/-- Modelled from the spec: the plain serializable snapshot of a session
(id, counters, timestamps and limits) produced by `Session.getState()`
and consumed by the restore path (spec section 4.1). -/
structure SessionState where
  id : Nat
  createdAt : Nat
  maxAgeSecs : Nat
  usageCount : Nat
  maxUsageCount : Nat
  errorScore : Nat
  errorScoreDecrement : Nat
  maxErrorScore : Nat
  retired : Bool
deriving Repr, DecidableEq

/-- Modelled from the spec: `Session.getState()` copies every counter,
timestamp and limit into the snapshot (spec section 4.1). -/
def Session.getState (s : Session) : SessionState :=
  { id := s.id, createdAt := s.createdAt, maxAgeSecs := s.maxAgeSecs,
    usageCount := s.usageCount, maxUsageCount := s.maxUsageCount,
    errorScore := s.errorScore, errorScoreDecrement := s.errorScoreDecrement,
    maxErrorScore := s.maxErrorScore, retired := s.retired }

/-- Modelled from the spec: rehydrating a session from its snapshot
(spec sections 4.1 and 4.2). -/
def Session.recreateSession (st : SessionState) : Session :=
  { id := st.id, createdAt := st.createdAt, maxAgeSecs := st.maxAgeSecs,
    usageCount := st.usageCount, maxUsageCount := st.maxUsageCount,
    errorScore := st.errorScore, errorScoreDecrement := st.errorScoreDecrement,
    maxErrorScore := st.maxErrorScore, retired := st.retired }

/-- Modelled from the spec: the `SessionPool` state.  The shipped typings
declare the fields `maxPoolSize`, `sessionOptions`, `sessions` and the
methods; the mutation logic follows spec section 4.2.  `nextSessionId`
feeds the default session factory with fresh ids; `initialized` tracks
the Uninitialized to Initialized transition. -/
structure SessionPool where
  maxPoolSize : Nat
  sessionOptions : SessionOptions
  sessions : List Session
  nextSessionId : Nat
  initialized : Bool
deriving Repr, DecidableEq

/-- A freshly constructed pool: empty, not yet initialized
(spec section 3, `SessionPool` lifecycle). -/
def mkSessionPool (n : Nat) (opts : SessionOptions) : SessionPool :=
  { maxPoolSize := n, sessionOptions := opts, sessions := [],
    nextSessionId := 0, initialized := false }

/-- Modelled from the spec: the default session factory creates a new
session with fresh id and zeroed counters (spec section 3,
`_defaultCreateSessionFunction` in the typings). -/
def SessionPool._defaultCreateSessionFunction (p : SessionPool) (now : Nat) : Session :=
  { id := p.nextSessionId, createdAt := now,
    maxAgeSecs := p.sessionOptions.maxAgeSecs,
    usageCount := 0, maxUsageCount := p.sessionOptions.maxUsageCount,
    errorScore := 0, errorScoreDecrement := p.sessionOptions.errorScoreDecrement,
    maxErrorScore := p.sessionOptions.maxErrorScore, retired := false }

/-- Modelled from the spec: `_hasSpaceForSession()` decides whether the
pool holds fewer than `maxPoolSize` sessions (typings declaration,
spec section 4.2). -/
def SessionPool._hasSpaceForSession (p : SessionPool) : Bool :=
  decide (p.sessions.length < p.maxPoolSize)

/-- Modelled from the spec: `_addSession` appends to the collection
(spec section 4.2). -/
def SessionPool._addSession (p : SessionPool) (s : Session) : SessionPool :=
  { p with sessions := p.sessions ++ [s] }

/-- Modelled from the spec: `_removeSession` removes the first session
with the matching id from the collection (spec section 4.2). -/
def SessionPool._removeSession (p : SessionPool) (s : Session) : SessionPool :=
  { p with sessions := p.sessions.eraseP (fun t => t.id == s.id) }

/-- Modelled from the spec: `_createSession` creates a new session via
the factory, adds it to the pool and returns it (spec section 4.2). -/
def SessionPool._createSession (p : SessionPool) (now : Nat) : Session × SessionPool :=
  let s := p._defaultCreateSessionFunction now
  (s, { p with sessions := p.sessions ++ [s], nextSessionId := p.nextSessionId + 1 })

/-- Modelled from the spec: `_pickSession` picks the session at the
uniformly random index `r mod size` (typings `_getRandomIndex`,
spec section 4.2); `none` when the collection is empty. -/
def SessionPool._pickSession (p : SessionPool) (r : Nat) : Option Session :=
  p.sessions.get? (r % p.sessions.length)

/-- Modelled from the spec: `getSession()` creates a new session while
there is space, otherwise picks a random one, returning it if usable and
replacing it with a fresh one if not (spec section 4.2).  Returns `none`
only when a full pool holds no session at all to pick. -/
def SessionPool.getSession (p : SessionPool) (r now : Nat) :
    Option (Session × SessionPool) :=
  if p._hasSpaceForSession then
    some (p._createSession now)
  else
    match p._pickSession r with
    | none => none
    | some picked =>
      if picked.isUsable now then
        some (picked, p)
      else
        some ((p._removeSession picked)._createSession now)

/-- Count of usable sessions in the pool (typings getter
`usableSessionsCount`). -/
def SessionPool.usableSessionsCount (p : SessionPool) (now : Nat) : Nat :=
  (p.sessions.filter (fun s => s.isUsable now)).length

/-- Count of retired (not usable) sessions in the pool (typings getter
`retiredSessionsCount`). -/
def SessionPool.retiredSessionsCount (p : SessionPool) (now : Nat) : Nat :=
  (p.sessions.filter (fun s => !(s.isUsable now))).length

/-- Modelled from the spec: the snapshot emitted by
`SessionPool.getState()` (spec sections 4.2 and 6). -/
structure SessionPoolState where
  usableSessionsCount : Nat
  retiredSessionsCount : Nat
  sessions : List SessionState
deriving Repr, DecidableEq

/-- Modelled from the spec: `getState()` returns the counts and the list
of session snapshots (spec section 4.2). -/
def SessionPool.getState (p : SessionPool) (now : Nat) : SessionPoolState :=
  { usableSessionsCount := p.usableSessionsCount now,
    retiredSessionsCount := p.retiredSessionsCount now,
    sessions := p.sessions.map Session.getState }

/-- Modelled from the spec: `_maybeLoadSessionPool` rehydrates sessions
from a persisted snapshot, skipping any session that is no longer usable;
an absent snapshot leaves the pool empty (spec section 4.2). -/
def SessionPool._maybeLoadSessionPool (p : SessionPool)
    (stored : Option SessionPoolState) (now : Nat) : SessionPool :=
  match stored with
  | none => p
  | some st =>
      { p with sessions :=
          p.sessions ++ ((st.sessions.map Session.recreateSession).filter
            (fun s => s.isUsable now)) }

/-- Modelled from the spec: `initialize()` attempts to restore a prior
snapshot and moves the pool to the Initialized state (spec section 4.2).
Named `initPool` here. -/
def SessionPool.initPool (p : SessionPool)
    (stored : Option SessionPoolState) (now : Nat) : SessionPool :=
  { p._maybeLoadSessionPool stored now with initialized := true }

/-- Error kinds of the engine (spec section 7). -/
inductive ApifyError where
  | notInitializedError
  | sessionCreationError
deriving Repr, DecidableEq

/-- Modelled from the spec: `getSession()` on a pool that has not been
initialized is a programming error (spec section 4.2);
the checked entry point guards every public operation. -/
def SessionPool.getSessionE (p : SessionPool) (r now : Nat) :
    Except ApifyError (Option (Session × SessionPool)) :=
  if p.initialized then Except.ok (p.getSession r now)
  else Except.error ApifyError.notInitializedError

/-- Modelled from the spec: checked `getState()` (spec section 4.2). -/
def SessionPool.getStateE (p : SessionPool) (now : Nat) :
    Except ApifyError SessionPoolState :=
  if p.initialized then Except.ok (p.getState now)
  else Except.error ApifyError.notInitializedError

/-- Modelled from the spec: `persistState()` serializes `getState()` to
the external store; the model returns the snapshot that is written under
the configured key (spec section 4.2). -/
def SessionPool.persistStateE (p : SessionPool) (now : Nat) :
    Except ApifyError SessionPoolState :=
  if p.initialized then Except.ok (p.getState now)
  else Except.error ApifyError.notInitializedError

/-- Runs a finite sequence of `getSession()` calls, each fed one entry of
the random stream `rs`; a failed call leaves the pool unchanged. -/
def runGetSessions (now : Nat) : SessionPool → List Nat → SessionPool
  | p, [] => p
  | p, r :: rs =>
    match p.getSession r now with
    | none => runGetSessions now p rs
    | some (_, p2) => runGetSessions now p2 rs

/-- The `PuppeteerInstance` record declared in
`types/puppeteer_pool.d.ts`: per-process bookkeeping with the monotonic
id, active and lifetime tab counters, the last-tab-opened timestamp and
the `killed` flag; `sessionId` is the session the instance was launched
bound to (spec section 4.4, proxy/session coupling). -/
structure PuppeteerInstance where
  id : Nat
  sessionId : Nat
  activePages : Nat
  totalPages : Nat
  lastPageOpenedAt : Nat
  killed : Bool
deriving Repr, DecidableEq

/-- The `PuppeteerPool` state declared in `types/puppeteer_pool.d.ts`:
rotation policy parameters, the monotonic `browserCounter` and the two
instance maps, modelled as lists keyed by instance id.  `deadInstances`
records every instance whose process was terminated, so that properties
about all instances the pool ever tracked can be stated. -/
structure PuppeteerPool where
  maxOpenPagesPerInstance : Nat
  retireInstanceAfterRequestCount : Nat
  killInstanceAfterMillis : Nat
  browserCounter : Nat
  activeInstances : List PuppeteerInstance
  retiredInstances : List PuppeteerInstance
  deadInstances : List PuppeteerInstance
deriving Repr, DecidableEq

/-- A freshly constructed browser pool with the given policy parameters. -/
def mkPuppeteerPool (maxPages retireAfter killAfter : Nat) : PuppeteerPool :=
  { maxOpenPagesPerInstance := maxPages,
    retireInstanceAfterRequestCount := retireAfter,
    killInstanceAfterMillis := killAfter,
    browserCounter := 0, activeInstances := [],
    retiredInstances := [], deadInstances := [] }

/-- Every instance the pool currently tracks, live or terminated. -/
def PuppeteerPool.tracked (p : PuppeteerPool) : List PuppeteerInstance :=
  p.activeInstances ++ p.retiredInstances ++ p.deadInstances

/-- The instance record a launch creates: next monotonic id, bound to
the given session, no tabs yet. -/
def launchedInstance (p : PuppeteerPool) (sid now : Nat) : PuppeteerInstance :=
  { id := p.browserCounter, sessionId := sid, activePages := 0,
    totalPages := 0, lastPageOpenedAt := now, killed := false }

/-- Modelled from the spec: `_launchInstance()` creates a new active
instance with the next monotonic id, bound to the given session
(spec section 4.4; the method body is absent from the shipped sources). -/
def PuppeteerPool._launchInstance (p : PuppeteerPool) (sid now : Nat) :
    PuppeteerInstance × PuppeteerPool :=
  (launchedInstance p sid now,
   { p with browserCounter := p.browserCounter + 1,
            activeInstances := p.activeInstances ++ [launchedInstance p sid now] })

/-- Modelled from the spec: `_incrementPageCount` updates the instance
metadata when a new page is opened (typings declaration, spec
section 4.3). -/
def incrementPageCount (inst : PuppeteerInstance) (now : Nat) : PuppeteerInstance :=
  { inst with activePages := inst.activePages + 1,
              totalPages := inst.totalPages + 1,
              lastPageOpenedAt := now }

/-- Applies `f` to the instance with the given id (the instance maps are
keyed by id). -/
def updateInstance (l : List PuppeteerInstance) (instId : Nat)
    (f : PuppeteerInstance → PuppeteerInstance) : List PuppeteerInstance :=
  l.map (fun i => if i.id == instId then f i else i)

/-- The pool with its active map replaced. -/
def withActive (p : PuppeteerPool) (l : List PuppeteerInstance) : PuppeteerPool :=
  { p with activeInstances := l }

/-- Modelled from the spec: `_retireInstance` transitions an active
instance to retired — it stops accepting new tabs while existing tabs may
finish (spec section 4.4); a no-op when the id is not active. -/
def PuppeteerPool._retireInstance (p : PuppeteerPool) (instId : Nat) : PuppeteerPool :=
  match p.activeInstances.find? (fun i => i.id == instId) with
  | none => p
  | some inst =>
      { p with activeInstances := p.activeInstances.filter (fun i => !(i.id == instId)),
               retiredInstances := p.retiredInstances ++ [inst] }

/-- Modelled from the spec: opening a tab on the instance with the given
id — increment its counters, then run the retirement check: an instance
whose lifetime tab count reached `retireInstanceAfterRequestCount` is
retired (spec section 4.4, retirement trigger conditions). -/
def PuppeteerPool._tabOn (p : PuppeteerPool) (inst : PuppeteerInstance)
    (now : Nat) : PuppeteerPool :=
  let acts := updateInstance p.activeInstances inst.id (fun i => incrementPageCount i now)
  let p2 := { p with activeInstances := acts }
  if p.retireInstanceAfterRequestCount ≤ inst.totalPages + 1 then
    p2._retireInstance inst.id
  else p2

/-- Modelled from the spec: `_openNewTab()` selects an active instance
with spare capacity (`activePages` below `maxOpenPagesPerInstance`), or
launches a new instance bound to the supplied session when none
qualifies; the chosen instance receives the tab and the retirement check
runs (spec section 4.4).  Returns the instance the tab was assigned to
(as it was at selection time) together with the new pool. -/
def PuppeteerPool._openNewTab (p : PuppeteerPool) (sid now : Nat) :
    PuppeteerInstance × PuppeteerPool :=
  match p.activeInstances.find?
      (fun i => decide (i.activePages < p.maxOpenPagesPerInstance)) with
  | some inst => (inst, p._tabOn inst now)
  | none =>
      let (inst, p1) := p._launchInstance sid now
      (inst, p1._tabOn inst now)

/-- Modelled from the spec: closing a page decrements the owning
instance's active tab count, wherever the instance lives
(spec section 4.4, `recyclePage` without tab reuse). -/
def PuppeteerPool.closePage (p : PuppeteerPool) (instId : Nat) : PuppeteerPool :=
  { p with
    activeInstances := updateInstance p.activeInstances instId
      (fun i => { i with activePages := i.activePages - 1 }),
    retiredInstances := updateInstance p.retiredInstances instId
      (fun i => { i with activePages := i.activePages - 1 }) }

/-- Marks an instance as having its underlying process terminated. -/
def killMark (i : PuppeteerInstance) : PuppeteerInstance :=
  { i with killed := true }

/-- The kill condition of the periodic sweep as documented on
`_killRetiredInstances` in `types/puppeteer_pool.d.ts`: all tabs closed,
or inactive for more than `killInstanceAfterMillis` since the last tab
was opened. -/
def shouldKillRetired (killAfter now : Nat) (i : PuppeteerInstance) : Bool :=
  decide (killAfter < now - i.lastPageOpenedAt) || decide (i.activePages = 0)

/-- Modelled from the `_killRetiredInstances` declaration in
`types/puppeteer_pool.d.ts` (the periodic sweep): kills all the retired
instances that have all tabs closed or are inactive for more than
`killInstanceAfterMillis`, removing them from the retired map. -/
def PuppeteerPool._killRetiredInstances (p : PuppeteerPool) (now : Nat) : PuppeteerPool :=
  { p with
    retiredInstances := p.retiredInstances.filter
      (fun i => !(shouldKillRetired p.killInstanceAfterMillis now i)),
    deadInstances := p.deadInstances ++
      (p.retiredInstances.filter
        (shouldKillRetired p.killInstanceAfterMillis now)).map killMark }

/-- Modelled from the spec: `_killAllInstances` forces termination of all
instances, active and retired, regardless of outstanding tabs
(spec section 4.4). -/
def PuppeteerPool._killAllInstances (p : PuppeteerPool) : PuppeteerPool :=
  { p with activeInstances := [], retiredInstances := [],
           deadInstances := p.deadInstances ++
             (p.activeInstances ++ p.retiredInstances).map killMark }

/-- Modelled from the spec: `destroy()` retires every active instance,
then forces termination of all instances (spec section 4.4). -/
def PuppeteerPool.destroy (p : PuppeteerPool) : PuppeteerPool :=
  (p.activeInstances.foldl (fun q i => q._retireInstance i.id) p)._killAllInstances

/-- Modelled from the spec: `_retireBrowserWithSession` retires every
instance bound to the given session, so that no further tabs are opened
under a blocked identity (spec section 4.4). -/
def PuppeteerPool._retireBrowserWithSession (p : PuppeteerPool) (sid : Nat) :
    PuppeteerPool :=
  { p with
    activeInstances := p.activeInstances.filter (fun i => !(i.sessionId == sid)),
    retiredInstances := p.retiredInstances ++
      p.activeInstances.filter (fun i => i.sessionId == sid) }

/-- The engine: a `SessionPool` and a `PuppeteerPool` coupled as
described in spec section 2 (control flow) and section 4.4
(proxy/session coupling). -/
structure System where
  sp : SessionPool
  bp : PuppeteerPool
deriving Repr, DecidableEq

/-- Modelled from the spec: `newPage()` reuses an active instance with
spare capacity; only when none qualifies does it ask
`SessionPool.getSession()` for an identity and launch a new instance
bound to it (spec sections 2 and 4.4).  Returns the instance the tab was
assigned to (as selected), or `none` when no tab could be produced. -/
def System.newPageWithInst (sys : System) (r now : Nat) :
    Option PuppeteerInstance × System :=
  match sys.bp.activeInstances.find?
      (fun i => decide (i.activePages < sys.bp.maxOpenPagesPerInstance)) with
  | some inst => (some inst, { sys with bp := sys.bp._tabOn inst now })
  | none =>
      match sys.sp.getSession r now with
      | none => (none, sys)
      | some (sess, sp2) =>
          let (inst, bp1) := sys.bp._launchInstance sess.id now
          (some inst, { sp := sp2, bp := bp1._tabOn inst now })

/-- Modelled from the spec: retiring a session marks it permanently
unusable in the session pool and cascades to the browser pool, retiring
every instance bound to it (spec section 4.4, `_retireBrowserWithSession`). -/
def System.retireSession (sys : System) (sid : Nat) : System :=
  let newSessions := sys.sp.sessions.map (fun s => if s.id == sid then s.retire else s)
  { sp := { sys.sp with sessions := newSessions },
    bp := sys.bp._retireBrowserWithSession sid }

/-- Session-health signal `markGood` flowing from the crawler
(spec section 2). -/
def System.markGoodSession (sys : System) (sid : Nat) : System :=
  let newSessions := sys.sp.sessions.map (fun s => if s.id == sid then s.markGood else s)
  { sys with sp := { sys.sp with sessions := newSessions } }

/-- Session-health signal `markBad` flowing from the crawler
(spec section 2). -/
def System.markBadSession (sys : System) (sid : Nat) : System :=
  let newSessions := sys.sp.sessions.map (fun s => if s.id == sid then s.markBad else s)
  { sys with sp := { sys.sp with sessions := newSessions } }

/-- One observable operation on the engine: the foreground calls and the
timer-driven sweep, each carrying its explicit wall-clock and random
inputs (spec section 5). -/
inductive SysOp where
  | newPage (r now : Nat)
  | closeTab (instId : Nat)
  | retireBrowser (instId : Nat)
  | retireSess (sid : Nat)
  | markGoodOp (sid : Nat)
  | markBadOp (sid : Nat)
  | sweep (now : Nat)
deriving Repr, DecidableEq

/-- Applies one operation to the engine. -/
def applyOp (op : SysOp) (sys : System) : System :=
  match op with
  | SysOp.newPage r now => (sys.newPageWithInst r now).2
  | SysOp.closeTab instId => { sys with bp := sys.bp.closePage instId }
  | SysOp.retireBrowser instId => { sys with bp := sys.bp._retireInstance instId }
  | SysOp.retireSess sid => sys.retireSession sid
  | SysOp.markGoodOp sid => sys.markGoodSession sid
  | SysOp.markBadOp sid => sys.markBadSession sid
  | SysOp.sweep now => { sys with bp := sys.bp._killRetiredInstances now }

/-- Applies a finite sequence of operations, first operation first. -/
def applyOps : List SysOp → System → System
  | [], sys => sys
  | op :: ops, sys => applyOps ops (applyOp op sys)

/-- The engine as constructed and initialized at startup with no prior
persisted snapshot: empty session pool, empty browser pool. -/
def initSystem (n : Nat) (opts : SessionOptions)
    (maxPages retireAfter killAfter : Nat) : System :=
  { sp := (mkSessionPool n opts).initPool none 0,
    bp := mkPuppeteerPool maxPages retireAfter killAfter }

/-- A state the engine can be in after any finite sequence of
operations from startup. -/
def Reachable (sys : System) : Prop :=
  ∃ (n : Nat) (opts : SessionOptions) (maxPages retireAfter killAfter : Nat)
    (ops : List SysOp),
    sys = applyOps ops (initSystem n opts maxPages retireAfter killAfter)

/-! Invariants of the engine, stated over the model. -/

/-- The ids of a list of instances. -/
def idsOf (l : List PuppeteerInstance) : List Nat :=
  l.map (fun i => i.id)

/-- Well-formedness of the browser pool maintained by every operation:
active instances are below the lifetime-tab retirement threshold, the
active map has no duplicate ids, every tracked id is below the monotonic
`browserCounter`, and active ids are disjoint from retired and dead ids
(an instance lives in exactly one map). -/
structure PoolWF (p : PuppeteerPool) : Prop where
  activeBelow : ∀ i ∈ p.activeInstances,
    i.totalPages < p.retireInstanceAfterRequestCount
  activeNodup : (idsOf p.activeInstances).Nodup
  idsLt : ∀ a ∈ idsOf p.tracked, a < p.browserCounter
  activeDisj : ∀ a ∈ idsOf p.activeInstances,
    a ∉ idsOf (p.retiredInstances ++ p.deadInstances)

/-- Well-formedness of the session pool: every session id is below the
monotonic id source, so freshly created sessions never collide with an
existing or past id. -/
def SpWF (sys : System) : Prop :=
  ∀ s ∈ sys.sp.sessions, s.id < sys.sp.nextSessionId

/-- The cascade invariant for a retired session id `sid`: the id is in
the past of the id source, every session still holding it is retired, and
no active browser instance is bound to it. -/
def SidInv (sid : Nat) (sys : System) : Prop :=
  sid < sys.sp.nextSessionId ∧
  (∀ s ∈ sys.sp.sessions, s.id = sid → s.retired = true) ∧
  (∀ i ∈ sys.bp.activeInstances, i.sessionId ≠ sid)

/-! Concrete example states used by scenarios, witnesses and
counterexamples. -/

/-- An active instance with one open tab whose last tab was opened at
clock 0. -/
def instIdleActive : PuppeteerInstance :=
  { id := 0, sessionId := 0, activePages := 1, totalPages := 1,
    lastPageOpenedAt := 0, killed := false }

/-- A browser pool holding only `instIdleActive`, with a 300 ms idle
grace period. -/
def poolIdleActive : PuppeteerPool :=
  { maxOpenPagesPerInstance := 50, retireInstanceAfterRequestCount := 100,
    killInstanceAfterMillis := 300, browserCounter := 1,
    activeInstances := [instIdleActive], retiredInstances := [],
    deadInstances := [] }

/-- A retired instance with all tabs closed. -/
def instRetiredNoTabs : PuppeteerInstance :=
  { id := 1, sessionId := 0, activePages := 0, totalPages := 5,
    lastPageOpenedAt := 0, killed := false }

/-- A browser pool whose retired map holds `instRetiredNoTabs`. -/
def poolRetiredOne : PuppeteerPool :=
  { maxOpenPagesPerInstance := 50, retireInstanceAfterRequestCount := 100,
    killInstanceAfterMillis := 300, browserCounter := 2,
    activeInstances := [], retiredInstances := [instRetiredNoTabs],
    deadInstances := [] }

/-- First of two live instances bound to session 0. -/
def instBound1 : PuppeteerInstance :=
  { id := 0, sessionId := 0, activePages := 1, totalPages := 1,
    lastPageOpenedAt := 0, killed := false }

/-- Second of two live instances bound to session 0. -/
def instBound2 : PuppeteerInstance :=
  { id := 1, sessionId := 0, activePages := 1, totalPages := 1,
    lastPageOpenedAt := 0, killed := false }

/-- An engine state with session 0 bound to two live instances. -/
def sysTwoBound : System :=
  { sp := { maxPoolSize := 1, sessionOptions := defaultSessionOptions,
            sessions := [{ id := 0, createdAt := 0, maxAgeSecs := 3000,
                           usageCount := 0, maxUsageCount := 50, errorScore := 0,
                           errorScoreDecrement := 1, maxErrorScore := 3,
                           retired := false }],
            nextSessionId := 1, initialized := true },
    bp := { maxOpenPagesPerInstance := 1, retireInstanceAfterRequestCount := 100,
            killInstanceAfterMillis := 300, browserCounter := 2,
            activeInstances := [instBound1, instBound2],
            retiredInstances := [], deadInstances := [] } }

/-- A reachable engine state: one `newPage()` after startup, which
creates session 0 and launches instance 0 bound to it. -/
def sysOnePage : System :=
  applyOps [SysOp.newPage 0 0] (initSystem 1 defaultSessionOptions 1 100 300)

/-- The single instance of `sysOnePage`. -/
def instOnePage : PuppeteerInstance :=
  { id := 0, sessionId := 0, activePages := 1, totalPages := 1,
    lastPageOpenedAt := 0, killed := false }

/-- A reachable engine state where the lifetime-tab threshold `1` was hit
by the first tab, retiring instance 0. -/
def sysLimitHit : System :=
  applyOps [SysOp.newPage 0 0] (initSystem 1 defaultSessionOptions 1 1 300)

/-- The retired instance of `sysLimitHit` (lifetime tab count 1 = the
threshold). -/
def instLimitHit : PuppeteerInstance :=
  { id := 0, sessionId := 0, activePages := 1, totalPages := 1,
    lastPageOpenedAt := 0, killed := false }

/-- The engine at startup with pool caps 1/100/300, used as a trivially
reachable witness state. -/
def sysStart : System :=
  initSystem 1 defaultSessionOptions 1 100 300

/-! Concrete session-pool example states. -/

/-- The session the default factory creates first (id 0) at clock 0 under
the default options. -/
def sessionA : Session :=
  { id := 0, createdAt := 0, maxAgeSecs := 3000, usageCount := 0,
    maxUsageCount := 50, errorScore := 0, errorScoreDecrement := 1,
    maxErrorScore := 3, retired := false }

/-- The session the default factory creates second (id 1). -/
def sessionB : Session :=
  { id := 1, createdAt := 0, maxAgeSecs := 3000, usageCount := 0,
    maxUsageCount := 50, errorScore := 0, errorScoreDecrement := 1,
    maxErrorScore := 3, retired := false }

/-- A session that hit its usage limit, hence no longer usable. -/
def sessionStale : Session :=
  { sessionA with usageCount := 50 }

/-- A session that was retired. -/
def sessionRetired : Session :=
  { sessionA with retired := true }

/-- An initialized pool with one session and room for another. -/
def poolWithSpace : SessionPool :=
  { maxPoolSize := 2, sessionOptions := defaultSessionOptions,
    sessions := [sessionA], nextSessionId := 1, initialized := true }

/-- An initialized full pool holding one usable session. -/
def poolFullUsable : SessionPool :=
  { poolWithSpace with maxPoolSize := 1 }

/-- An initialized full pool holding one over-used session. -/
def poolFullStale : SessionPool :=
  { poolFullUsable with sessions := [sessionStale] }

/-- An initialized full pool holding one retired session. -/
def poolRetiredSource : SessionPool :=
  { poolFullUsable with sessions := [sessionRetired] }

/-- A constructed pool on which `initialize()` has not been called. -/
def poolUninitialized : SessionPool :=
  mkSessionPool 2 defaultSessionOptions

/-- The pool of the rotation scenario right after startup:
`maxPoolSize = 2`, initialized empty. -/
def scenarioPool0 : SessionPool :=
  (mkSessionPool 2 defaultSessionOptions).initPool none 0

/-- The scenario pool after the first `getSession()` call. -/
def scenarioPool1 : SessionPool :=
  { maxPoolSize := 2, sessionOptions := defaultSessionOptions,
    sessions := [sessionA], nextSessionId := 1, initialized := true }

/-- The scenario pool after the second `getSession()` call. -/
def scenarioPool2 : SessionPool :=
  { maxPoolSize := 2, sessionOptions := defaultSessionOptions,
    sessions := [sessionA, sessionB], nextSessionId := 2, initialized := true }

/-! Helper lemmas about the session pool. -/

theorem length_filter_add_length_filter_not {α : Type} (f : α → Bool) (l : List α) :
    (l.filter f).length + (l.filter (fun a => !(f a))).length = l.length := by
  induction l with
  | nil => rfl
  | cons a t ih =>
    by_cases h : f a <;> simp [List.filter_cons, h] <;> omega

theorem mem_of_pickSession {p : SessionPool} {r : Nat} {s : Session}
    (h : p._pickSession r = some s) : s ∈ p.sessions := by
  unfold SessionPool._pickSession at h
  rw [List.get?_eq_getElem?, List.getElem?_eq_some] at h
  obtain ⟨hn, rfl⟩ := h
  exact List.getElem_mem hn

theorem getSession_eq_cases {p : SessionPool} {r now : Nat} {s : Session}
    {p2 : SessionPool} (h : p.getSession r now = some (s, p2)) :
    (p._hasSpaceForSession = true ∧ (s, p2) = p._createSession now) ∨
    (p._hasSpaceForSession = false ∧ ∃ picked, p._pickSession r = some picked ∧
       ((picked.isUsable now = true ∧ s = picked ∧ p2 = p) ∨
        (picked.isUsable now = false ∧
          (s, p2) = (p._removeSession picked)._createSession now))) := by
  unfold SessionPool.getSession at h
  split at h
  case isTrue hs =>
    rw [Option.some_inj] at h
    exact Or.inl ⟨hs, h.symm⟩
  case isFalse hs =>
    split at h
    case h_1 => cases h
    case h_2 picked heq =>
      split at h
      case isTrue hu =>
        rw [Option.some_inj] at h
        injection h with h1 h2
        exact Or.inr ⟨by simpa using hs, picked, heq, Or.inl ⟨hu, h1.symm, h2.symm⟩⟩
      case isFalse hu =>
        rw [Option.some_inj] at h
        exact Or.inr ⟨by simpa using hs, picked, heq,
          Or.inr ⟨by simpa using hu, h.symm⟩⟩

theorem getSession_maxPoolSize {p : SessionPool} {r now : Nat} {s : Session}
    {p2 : SessionPool} (h : p.getSession r now = some (s, p2)) :
    p2.maxPoolSize = p.maxPoolSize := by
  rcases getSession_eq_cases h with ⟨_, hc⟩ | ⟨_, picked, _, hrest⟩
  · have hp2 : p2 = (p._createSession now).2 := by rw [← hc]
    rw [hp2]
    rfl
  · rcases hrest with ⟨_, _, hp2⟩ | ⟨_, hc⟩
    · rw [hp2]
    · have hp2 : p2 = ((p._removeSession picked)._createSession now).2 := by rw [← hc]
      rw [hp2]
      rfl

theorem getSession_length_le {p : SessionPool} {r now : Nat} {s : Session}
    {p2 : SessionPool} (hlen : p.sessions.length ≤ p.maxPoolSize)
    (h : p.getSession r now = some (s, p2)) :
    p2.sessions.length ≤ p.maxPoolSize := by
  rcases getSession_eq_cases h with ⟨hsp, hc⟩ | ⟨_, picked, hpick, hrest⟩
  · have hp2 : p2 = (p._createSession now).2 := by rw [← hc]
    rw [hp2]
    have : p.sessions.length < p.maxPoolSize := by
      simpa [SessionPool._hasSpaceForSession] using hsp
    simp only [SessionPool._createSession, List.length_append, List.length_singleton]
    omega
  · rcases hrest with ⟨_, _, hp2⟩ | ⟨_, hc⟩
    · rw [hp2]; exact hlen
    · have hp2 : p2 = ((p._removeSession picked)._createSession now).2 := by rw [← hc]
      rw [hp2]
      simp only [SessionPool._createSession, SessionPool._removeSession,
        List.length_append, List.length_singleton]
      have hmem : picked ∈ p.sessions := mem_of_pickSession hpick
      have herase := List.length_eraseP_add_one (p := fun t => t.id == picked.id)
        hmem (by simp)
      omega

theorem runGetSessions_inv (now : Nat) : ∀ (rs : List Nat) (p : SessionPool),
    p.sessions.length ≤ p.maxPoolSize →
    (runGetSessions now p rs).maxPoolSize = p.maxPoolSize ∧
    (runGetSessions now p rs).sessions.length ≤ p.maxPoolSize := by
  intro rs
  induction rs with
  | nil => intro p hp; exact ⟨rfl, hp⟩
  | cons r rest ih =>
    intro p hp
    cases hg : p.getSession r now with
    | none =>
      have h2 := ih p hp
      simpa [runGetSessions, hg] using h2
    | some res =>
      obtain ⟨s, p2⟩ := res
      have hmax := getSession_maxPoolSize hg
      have hlen := getSession_length_le hp hg
      have h2 := ih p2 (by rw [hmax]; exact hlen)
      rw [hmax] at h2
      simpa [runGetSessions, hg] using h2

/-! Claim theorems for the session pool. -/

/-- Claim C10: at every observable point, `usableSessionsCount` plus
`retiredSessionsCount` equals the total number of sessions held in the
pool — every session is counted as exactly one of usable or retired; the
identity holds for every pool state, hence no operation breaks the
partition. -/
theorem sessionCountsPartition (p : SessionPool) (now : Nat) :
    p.usableSessionsCount now + p.retiredSessionsCount now = p.sessions.length :=
  length_filter_add_length_filter_not _ _

/-- Claim C8: `retire()` is idempotent (a second `retire()` leaves the
session unchanged) and makes `isUsable()` return false permanently — no
number of subsequent `markGood()` calls ever makes it true again. -/
theorem retireIdempotentAndPermanent (s : Session) (now k : Nat) :
    s.retire.retire = s.retire ∧
    (Session.markGood^[k] s.retire).isUsable now = false := by
  refine ⟨rfl, ?_⟩
  have hret : ∀ (m : Nat) (t : Session), (Session.markGood^[m] t).retired = t.retired := by
    intro m
    induction m with
    | zero => intro t; rfl
    | succ m ih =>
      intro t
      rw [Function.iterate_succ_apply]
      rw [ih]
      rfl
  have h1 : (Session.markGood^[k] s.retire).retired = true := by
    rw [hret k s.retire]
    rfl
  simp [Session.isUsable, h1]

/-- Claim C9: every `SessionPool` operation other than `initialize()`
fails with `NotInitializedError` on a pool that has not been initialized,
while `initialize()` itself succeeds on a freshly constructed pool and
unlocks the other operations. -/
theorem operationsRequireInit (p : SessionPool) (r now : Nat)
    (h : p.initialized = false) :
    p.getSessionE r now = Except.error ApifyError.notInitializedError ∧
    p.getStateE now = Except.error ApifyError.notInitializedError ∧
    p.persistStateE now = Except.error ApifyError.notInitializedError ∧
    (∀ (n : Nat) (opts : SessionOptions) (stored : Option SessionPoolState) (t : Nat),
       ((mkSessionPool n opts).initPool stored t).initialized = true ∧
       ((mkSessionPool n opts).initPool stored t).getSessionE r now =
         Except.ok (((mkSessionPool n opts).initPool stored t).getSession r now)) := by
  refine ⟨?_, ?_, ?_, ?_⟩ <;>
    simp [SessionPool.getSessionE, SessionPool.getStateE,
      SessionPool.persistStateE, h, SessionPool.initPool]

/-- Witness for claim C9 at a concrete uninitialized pool. -/
theorem operationsRequireInit_witness :
    poolUninitialized.initialized = false ∧
    poolUninitialized.getSessionE 0 0 = Except.error ApifyError.notInitializedError :=
  ⟨rfl, (operationsRequireInit poolUninitialized 0 0 rfl).1⟩

/-- Claim C1: a pool constructed with `maxPoolSize = n` and initialized
empty never holds more than `n` sessions after any finite sequence of
`getSession()` calls (every observable point is the end of some prefix of
the call sequence, and the random stream `rs` ranges over all prefixes). -/
theorem sessionPoolSizeBounded (n : Nat) (opts : SessionOptions) (now : Nat)
    (rs : List Nat) :
    (runGetSessions now ((mkSessionPool n opts).initPool none now) rs).sessions.length ≤ n := by
  have h := runGetSessions_inv now rs ((mkSessionPool n opts).initPool none now)
    (by simp [mkSessionPool, SessionPool.initPool, SessionPool._maybeLoadSessionPool])
  simpa [mkSessionPool, SessionPool.initPool, SessionPool._maybeLoadSessionPool] using h.2

/-- Claim C2: `getSession()` creates, adds and returns a fresh session
while the pool is below `maxPoolSize`; on a full pool it returns the
randomly picked session when usable, and otherwise removes it and returns
a freshly created replacement.  In particular, with `maxPoolSize = 2`
three sequential calls return exactly two distinct sessions and the third
call returns one of the first two, leaving the pool unchanged. -/
theorem getSessionBehaviorAndRotation :
    (∀ (p : SessionPool) (r now : Nat), p.sessions.length < p.maxPoolSize →
        p.getSession r now = some (p._createSession now)) ∧
    (∀ (p : SessionPool) (r now : Nat) (picked : Session),
        p.maxPoolSize ≤ p.sessions.length → p._pickSession r = some picked →
        picked.isUsable now = true → p.getSession r now = some (picked, p)) ∧
    (∀ (p : SessionPool) (r now : Nat) (picked : Session),
        p.maxPoolSize ≤ p.sessions.length → p._pickSession r = some picked →
        picked.isUsable now = false →
        p.getSession r now = some ((p._removeSession picked)._createSession now)) ∧
    (∀ r1 r2 r3 : Nat, ∃ (s1 s2 s3 : Session) (p1 p2 p3 : SessionPool),
        scenarioPool0.getSession r1 0 = some (s1, p1) ∧
        p1.getSession r2 0 = some (s2, p2) ∧
        p2.getSession r3 0 = some (s3, p3) ∧
        s1 ≠ s2 ∧ (s3 = s1 ∨ s3 = s2) ∧ p3 = p2 ∧ p2.sessions.length = 2) := by
  refine ⟨?_, ?_, ?_, ?_⟩
  · intro p r now h
    have hs : p._hasSpaceForSession = true := by
      simp [SessionPool._hasSpaceForSession, h]
    simp [SessionPool.getSession, hs]
  · intro p r now picked h hpick hu
    have hs : p._hasSpaceForSession = false := by
      simp [SessionPool._hasSpaceForSession]
      omega
    simp [SessionPool.getSession, hs, hpick, hu]
  · intro p r now picked h hpick hu
    have hs : p._hasSpaceForSession = false := by
      simp [SessionPool._hasSpaceForSession]
      omega
    simp [SessionPool.getSession, hs, hpick, hu]
  · intro r1 r2 r3
    have hs2 : scenarioPool2._hasSpaceForSession = false := by decide
    have huA : sessionA.isUsable 0 = true := by decide
    have huB : sessionB.isUsable 0 = true := by decide
    rcases Nat.mod_two_eq_zero_or_one r3 with h3 | h3
    · refine ⟨sessionA, sessionB, sessionA, scenarioPool1, scenarioPool2,
        scenarioPool2, rfl, rfl, ?_, by decide, Or.inl rfl, rfl, rfl⟩
      have hp : scenarioPool2._pickSession r3 = some sessionA := by
        simp [SessionPool._pickSession, scenarioPool2, h3]
      unfold SessionPool.getSession
      simp [hs2, hp, huA]
    · refine ⟨sessionA, sessionB, sessionB, scenarioPool1, scenarioPool2,
        scenarioPool2, rfl, rfl, ?_, by decide, Or.inr rfl, rfl, rfl⟩
      have hp : scenarioPool2._pickSession r3 = some sessionB := by
        simp [SessionPool._pickSession, scenarioPool2, h3]
      unfold SessionPool.getSession
      simp [hs2, hp, huB]

/-- Witness for claim C2: the three behaviours at concrete pools. -/
theorem getSessionBehaviorAndRotation_witness :
    poolWithSpace.getSession 0 0 = some (poolWithSpace._createSession 0) ∧
    poolFullUsable.getSession 0 0 = some (sessionA, poolFullUsable) ∧
    poolFullStale.getSession 0 0 =
      some ((poolFullStale._removeSession sessionStale)._createSession 0) := by
  obtain ⟨h1, h2, h3, _⟩ := getSessionBehaviorAndRotation
  exact ⟨h1 poolWithSpace 0 0 (by decide),
    h2 poolFullUsable 0 0 sessionA (by decide) (by decide) (by decide),
    h3 poolFullStale 0 0 sessionStale (by decide) (by decide) (by decide)⟩

/-- Claim C7 counterexample: restoring a fresh pool from the snapshot of
a pool holding one retired session yields `retiredSessionsCount = 0`,
not the source's `1` — the restore path skips sessions that are no
longer usable, so the retired count is not reproduced. -/
theorem restoreCountsCounterexample :
    ((mkSessionPool 1 defaultSessionOptions).initPool
        (some (poolRetiredSource.getState 0)) 0).retiredSessionsCount 0 ≠
      poolRetiredSource.retiredSessionsCount 0 := by decide

/-- Claim C7 amended: restoring a fresh pool from `getState()` reproduces
the source's `usableSessionsCount`; its `retiredSessionsCount` is `0`
(the restore path skips unusable sessions), equal to the source's only
when the source held no retired session; and each individual session's
snapshot round-trip reproduces `isUsable()` under the same wall clock. -/
theorem restoreRoundTrip (p : SessionPool) (m : Nat) (opts : SessionOptions)
    (now : Nat) :
    (((mkSessionPool m opts).initPool (some (p.getState now)) now).usableSessionsCount now
       = p.usableSessionsCount now) ∧
    (((mkSessionPool m opts).initPool (some (p.getState now)) now).retiredSessionsCount now
       = 0) ∧
    (∀ s : Session, (Session.recreateSession s.getState).isUsable now = s.isUsable now) := by
  have hid : Session.recreateSession ∘ Session.getState = id := funext fun s => rfl
  have hmap : (p.sessions.map Session.getState).map Session.recreateSession = p.sessions := by
    rw [List.map_map, hid, List.map_id]
  refine ⟨?_, ?_, fun s => rfl⟩
  · simp only [SessionPool.initPool, SessionPool._maybeLoadSessionPool,
      SessionPool.getState, SessionPool.usableSessionsCount, mkSessionPool,
      hmap, List.nil_append, List.filter_filter]
    congr 1
    apply List.filter_congr
    intro s _
    simp
  · simp only [SessionPool.initPool, SessionPool._maybeLoadSessionPool,
      SessionPool.getState, SessionPool.retiredSessionsCount, mkSessionPool,
      hmap, List.nil_append, List.filter_filter]
    rw [List.length_eq_zero]
    apply List.filter_eq_nil_iff.mpr
    intro s _
    simp

/-! Helper lemmas about the browser pool: no operation but the sweep and
the final kill touches the dead list. -/

theorem retireInstance_dead (p : PuppeteerPool) (instId : Nat) :
    (p._retireInstance instId).deadInstances = p.deadInstances := by
  unfold PuppeteerPool._retireInstance
  split <;> rfl

theorem foldl_retire_dead (l : List PuppeteerInstance) : ∀ p : PuppeteerPool,
    (l.foldl (fun q i => q._retireInstance i.id) p).deadInstances = p.deadInstances := by
  induction l with
  | nil => intro p; rfl
  | cons a t ih =>
    intro p
    rw [List.foldl_cons, ih, retireInstance_dead]

theorem tabOn_dead (p : PuppeteerPool) (inst : PuppeteerInstance) (now : Nat) :
    (p._tabOn inst now).deadInstances = p.deadInstances := by
  unfold PuppeteerPool._tabOn
  split
  · rw [retireInstance_dead]
  · rfl

theorem newPage_dead (sys : System) (r now : Nat) :
    ((sys.newPageWithInst r now).2).bp.deadInstances = sys.bp.deadInstances := by
  unfold System.newPageWithInst
  split
  · exact tabOn_dead _ _ _
  · split
    · rfl
    · exact tabOn_dead _ _ _

theorem applyOp_deadKilled (op : SysOp) (sys : System)
    (h : ∀ i ∈ sys.bp.deadInstances, i.killed = true) :
    ∀ i ∈ (applyOp op sys).bp.deadInstances, i.killed = true := by
  cases op with
  | newPage r now =>
    intro i hi
    rw [applyOp, newPage_dead] at hi
    exact h i hi
  | closeTab instId => exact h
  | retireBrowser instId =>
    intro i hi
    rw [applyOp, retireInstance_dead] at hi
    exact h i hi
  | retireSess sid => exact h
  | markGoodOp sid => exact h
  | markBadOp sid => exact h
  | sweep now =>
    intro i hi
    rw [applyOp] at hi
    rcases List.mem_append.mp hi with hl | hr
    · exact h i hl
    · rcases List.mem_map.mp hr with ⟨j, _, rfl⟩
      rfl

theorem applyOps_deadKilled (ops : List SysOp) : ∀ sys : System,
    (∀ i ∈ sys.bp.deadInstances, i.killed = true) →
    ∀ i ∈ (applyOps ops sys).bp.deadInstances, i.killed = true := by
  induction ops with
  | nil => intro sys h; exact h
  | cons op t ih =>
    intro sys h
    exact ih (applyOp op sys) (applyOp_deadKilled op sys h)

theorem reachable_deadKilled (sys : System) (h : Reachable sys) :
    ∀ i ∈ sys.bp.deadInstances, i.killed = true := by
  obtain ⟨n, opts, mp, ra, ka, ops, rfl⟩ := h
  exact applyOps_deadKilled ops _ (by intro i hi; cases hi)

/-! Claim theorems for the browser pool sweep and shutdown. -/

/-- Claim C3 counterexample: an ACTIVE instance idle longer than
`killInstanceAfterSecs` survives the periodic sweep untouched — it stays
in the active map and is not killed, refuting the claim that any
instance, active or retired, idle beyond the grace period is terminated
and removed.  The sweep only inspects the retired map
(`_killRetiredInstances` in `types/puppeteer_pool.d.ts`). -/
theorem sweepSparesIdleActiveCounterexample :
    poolIdleActive.killInstanceAfterMillis < 1000 - instIdleActive.lastPageOpenedAt ∧
    (poolIdleActive._killRetiredInstances 1000).activeInstances = [instIdleActive] ∧
    instIdleActive.killed = false := by decide

/-- Claim C3 amended: on every periodic sweep, each RETIRED instance with
zero active tabs or idle longer than `killInstanceAfterSecs` since its
last tab was opened is terminated (marked killed) and removed from the
retired map; retired instances matching neither condition stay, and the
active map is never touched by the sweep. -/
theorem sweepKillsRetiredInstances (p : PuppeteerPool) (now : Nat) :
    (∀ i ∈ p.retiredInstances,
        shouldKillRetired p.killInstanceAfterMillis now i = true →
          i ∉ (p._killRetiredInstances now).retiredInstances ∧
          killMark i ∈ (p._killRetiredInstances now).deadInstances) ∧
    (p._killRetiredInstances now).activeInstances = p.activeInstances ∧
    (∀ i ∈ p.retiredInstances,
        shouldKillRetired p.killInstanceAfterMillis now i = false →
          i ∈ (p._killRetiredInstances now).retiredInstances) := by
  refine ⟨?_, rfl, ?_⟩
  · intro i hi hk
    constructor
    · intro hmem
      simp only [PuppeteerPool._killRetiredInstances] at hmem
      have := (List.mem_filter.mp hmem).2
      rw [hk] at this
      cases this
    · simp only [PuppeteerPool._killRetiredInstances]
      exact List.mem_append.mpr (Or.inr (List.mem_map.mpr
        ⟨i, List.mem_filter.mpr ⟨hi, hk⟩, rfl⟩))
  · intro i hi hk
    simp only [PuppeteerPool._killRetiredInstances]
    exact List.mem_filter.mpr ⟨hi, by rw [hk]; rfl⟩

/-- Witness for the amended claim C3 at a concrete retired instance with
all tabs closed. -/
theorem sweepKillsRetiredInstances_witness :
    shouldKillRetired poolRetiredOne.killInstanceAfterMillis 50 instRetiredNoTabs = true ∧
    instRetiredNoTabs ∉ (poolRetiredOne._killRetiredInstances 50).retiredInstances ∧
    killMark instRetiredNoTabs ∈ (poolRetiredOne._killRetiredInstances 50).deadInstances := by
  have h := (sweepKillsRetiredInstances poolRetiredOne 50).1 instRetiredNoTabs
    (by decide) (by decide)
  exact ⟨by decide, h.1, h.2⟩

/-- Claim C5: after `destroy()` the active and retired instance maps are
both empty, and every instance the pool ever tracked is dead with
`killed = true` (instances only ever leave the maps through the dead
list, and `destroy()` moves all remaining ones there). -/
theorem destroyEmptiesAndKills (sys : System) (h : Reachable sys) :
    sys.bp.destroy.activeInstances = [] ∧
    sys.bp.destroy.retiredInstances = [] ∧
    (∀ i ∈ sys.bp.destroy.deadInstances, i.killed = true) := by
  refine ⟨rfl, rfl, ?_⟩
  intro i hi
  have hd : sys.bp.destroy.deadInstances =
      (sys.bp.activeInstances.foldl (fun q j => q._retireInstance j.id) sys.bp).deadInstances ++
      ((sys.bp.activeInstances.foldl (fun q j => q._retireInstance j.id) sys.bp).activeInstances ++
        (sys.bp.activeInstances.foldl (fun q j => q._retireInstance j.id) sys.bp).retiredInstances).map
        killMark := rfl
  rw [hd, foldl_retire_dead] at hi
  rcases List.mem_append.mp hi with hl | hr
  · exact reachable_deadKilled sys h i hl
  · rcases List.mem_map.mp hr with ⟨j, _, rfl⟩
    rfl

/-- Witness for claim C5 at a concrete reachable state (one page opened
after startup). -/
theorem destroyEmptiesAndKills_witness :
    sysOnePage.bp.destroy.activeInstances = [] ∧
    sysOnePage.bp.destroy.retiredInstances = [] := by
  have h := destroyEmptiesAndKills sysOnePage
    ⟨1, defaultSessionOptions, 1, 100, 300, [SysOp.newPage 0 0], rfl⟩
  exact ⟨h.1, h.2.1⟩

/-! Plumbing lemmas for instance ids and map updates. -/

theorem mem_idsOf {a : Nat} {l : List PuppeteerInstance} :
    a ∈ idsOf l ↔ ∃ i ∈ l, i.id = a := by
  unfold idsOf
  exact List.mem_map

theorem idsOf_append (l1 l2 : List PuppeteerInstance) :
    idsOf (l1 ++ l2) = idsOf l1 ++ idsOf l2 := by
  unfold idsOf
  exact List.map_append _ _ _

theorem idsOf_filter_subset (q : PuppeteerInstance → Bool)
    (l : List PuppeteerInstance) : ∀ a ∈ idsOf (l.filter q), a ∈ idsOf l :=
  fun _ ha => ((List.filter_sublist l).map (fun i => i.id)).subset ha

theorem idsOf_updateInstance (l : List PuppeteerInstance) (instId : Nat)
    (f : PuppeteerInstance → PuppeteerInstance)
    (hf : ∀ i, (f i).id = i.id) :
    idsOf (updateInstance l instId f) = idsOf l := by
  induction l with
  | nil => rfl
  | cons a t ih =>
    unfold updateInstance idsOf at ih ⊢
    simp only [List.map_cons, List.map_map] at ih ⊢
    rw [ih]
    by_cases hc : (a.id == instId) = true
    · rw [if_pos hc, hf]
    · rw [if_neg hc]

theorem mem_updateInstance {l : List PuppeteerInstance} {instId : Nat}
    {f : PuppeteerInstance → PuppeteerInstance} {j : PuppeteerInstance}
    (h : j ∈ updateInstance l instId f) :
    ∃ i ∈ l, j = i ∨ (j = f i ∧ i.id = instId) := by
  unfold updateInstance at h
  rcases List.mem_map.mp h with ⟨i, hi, hg⟩
  refine ⟨i, hi, ?_⟩
  by_cases hc : (i.id == instId) = true
  · rw [if_pos hc] at hg
    exact Or.inr ⟨hg.symm, by simpa using hc⟩
  · rw [if_neg hc] at hg
    exact Or.inl hg.symm

theorem updateInstance_apply_mem {l : List PuppeteerInstance}
    {inst : PuppeteerInstance} {f : PuppeteerInstance → PuppeteerInstance}
    (hi : inst ∈ l) : f inst ∈ updateInstance l inst.id f := by
  unfold updateInstance
  exact List.mem_map.mpr ⟨inst, hi, by simp⟩

theorem eq_of_same_id {l : List PuppeteerInstance}
    (hnd : (idsOf l).Nodup) {i j : PuppeteerInstance}
    (hi : i ∈ l) (hj : j ∈ l) (hid : i.id = j.id) : i = j :=
  List.inj_on_of_nodup_map hnd hi hj hid

theorem idsOf_tracked_mem {p : PuppeteerPool} {a : Nat} :
    a ∈ idsOf p.tracked ↔
      a ∈ idsOf p.activeInstances ∨ a ∈ idsOf p.retiredInstances ∨
        a ∈ idsOf p.deadInstances := by
  unfold PuppeteerPool.tracked
  rw [idsOf_append, idsOf_append]
  simp [List.mem_append]

theorem mem_idsOf_retired_dead {p : PuppeteerPool} {a : Nat} :
    a ∈ idsOf (p.retiredInstances ++ p.deadInstances) ↔
      a ∈ idsOf p.retiredInstances ∨ a ∈ idsOf p.deadInstances := by
  rw [idsOf_append]
  exact List.mem_append

theorem idsOf_killMark_map (l : List PuppeteerInstance) :
    idsOf (l.map killMark) = idsOf l := by
  unfold idsOf
  rw [List.map_map]
  rfl

/-- Opening a tab on an instance of the active map preserves the pool
invariants: the target is unique in the map, every other active instance
is below the threshold, and the post-increment retirement check evicts
the target when it reaches the threshold. -/
theorem tabOn_WF {p : PuppeteerPool} {inst : PuppeteerInstance} {now : Nat}
    (hinst : inst ∈ p.activeInstances)
    (hone : ∀ j ∈ p.activeInstances, j.id = inst.id → j = inst)
    (hbelow : ∀ j ∈ p.activeInstances, j.id ≠ inst.id →
        j.totalPages < p.retireInstanceAfterRequestCount)
    (hnd : (idsOf p.activeInstances).Nodup)
    (hlt : ∀ a ∈ idsOf p.tracked, a < p.browserCounter)
    (hdisj : ∀ a ∈ idsOf p.activeInstances,
        a ∉ idsOf (p.retiredInstances ++ p.deadInstances)) :
    PoolWF (p._tabOn inst now) := by
  have hlt' : ∀ a, a ∈ idsOf p.activeInstances ∨ a ∈ idsOf p.retiredInstances ∨
      a ∈ idsOf p.deadInstances → a < p.browserCounter := by
    intro a ha
    exact hlt a (idsOf_tracked_mem.mpr ha)
  have hdisj' : ∀ a ∈ idsOf p.activeInstances,
      ¬(a ∈ idsOf p.retiredInstances ∨ a ∈ idsOf p.deadInstances) := by
    intro a ha hc
    exact hdisj a ha (mem_idsOf_retired_dead.mpr hc)
  unfold PuppeteerPool._tabOn
  have hidsacts : idsOf (updateInstance p.activeInstances inst.id
      (fun i => incrementPageCount i now)) = idsOf p.activeInstances :=
    idsOf_updateInstance _ _ _ (fun i => rfl)
  split
  case isTrue hret =>
    unfold PuppeteerPool._retireInstance
    cases hf : (updateInstance p.activeInstances inst.id
        (fun i => incrementPageCount i now)).find? (fun i => i.id == inst.id) with
    | none =>
      exfalso
      have hmem : incrementPageCount inst now ∈
          updateInstance p.activeInstances inst.id (fun i => incrementPageCount i now) :=
        updateInstance_apply_mem hinst
      have := List.find?_eq_none.mp hf _ hmem
      exact this (by simp [incrementPageCount])
    | some inst2 =>
      have hinst2id : inst2.id = inst.id := by
        have := List.find?_some hf
        simpa using this
      have hinst2mem : inst2.id ∈ idsOf p.activeInstances := by
        rw [← hidsacts]
        exact mem_idsOf.mpr ⟨inst2, List.mem_of_find?_eq_some hf, rfl⟩
      simp only [hf]
      refine ⟨?_, ?_, ?_, ?_⟩
      · intro j hj
        have hj' := List.mem_filter.mp hj
        have hjid : ¬(j.id = inst.id) := by
          have := hj'.2
          simp at this
          exact this
        rcases mem_updateInstance hj'.1 with ⟨i, hi, hcase⟩
        rcases hcase with rfl | ⟨rfl, hid⟩
        · exact hbelow _ hi hjid
        · exact absurd hid hjid
      · have hsub : List.Sublist
            (idsOf ((updateInstance p.activeInstances inst.id
              (fun i => incrementPageCount i now)).filter (fun i => !(i.id == inst.id))))
            (idsOf (updateInstance p.activeInstances inst.id
              (fun i => incrementPageCount i now))) :=
          (List.filter_sublist _).map _
        rw [hidsacts] at hsub
        exact hnd.sublist hsub
      · intro a ha
        rw [idsOf_tracked_mem] at ha
        rcases ha with ha | ha | ha
        · have := idsOf_filter_subset _ _ a ha
          rw [hidsacts] at this
          exact hlt' a (Or.inl this)
        · rw [idsOf_append] at ha
          rcases List.mem_append.mp ha with ha | ha
          · exact hlt' a (Or.inr (Or.inl ha))
          · have : a = inst2.id := by
              rcases mem_idsOf.mp ha with ⟨i, hi, rfl⟩
              rw [List.mem_singleton] at hi
              rw [hi]
            rw [this]
            exact hlt' _ (Or.inl hinst2mem)
        · exact hlt' a (Or.inr (Or.inr ha))
      · intro a ha hmem
        rcases mem_idsOf.mp ha with ⟨j, hj, rfl⟩
        have hj' := List.mem_filter.mp hj
        have hjid : ¬(j.id = inst.id) := by
          have := hj'.2
          simp at this
          exact this
        have hjact : j.id ∈ idsOf p.activeInstances := by
          rw [← hidsacts]
          exact mem_idsOf.mpr ⟨j, hj'.1, rfl⟩
        rw [idsOf_append] at hmem
        rcases List.mem_append.mp hmem with hm | hm
        · rw [idsOf_append] at hm
          rcases List.mem_append.mp hm with hm | hm
          · exact hdisj' _ hjact (Or.inl hm)
          · rcases mem_idsOf.mp hm with ⟨i, hi, hieq⟩
            rw [List.mem_singleton] at hi
            rw [hi] at hieq
            rw [← hieq, hinst2id] at hjid
            exact hjid rfl
        · exact hdisj' _ hjact (Or.inr hm)
  case isFalse hret =>
    refine ⟨?_, ?_, ?_, ?_⟩
    · intro j hj
      have hj' : j ∈ updateInstance p.activeInstances inst.id
          (fun i => incrementPageCount i now) := hj
      show j.totalPages < p.retireInstanceAfterRequestCount
      rcases mem_updateInstance hj' with ⟨i, hi, hcase⟩
      rcases hcase with rfl | ⟨rfl, hid⟩
      · by_cases hidi : j.id = inst.id
        · rw [hone _ hi hidi]
          omega
        · exact hbelow _ hi hidi
      · rw [hone _ hi hid]
        show inst.totalPages + 1 < p.retireInstanceAfterRequestCount
        omega
    · show (idsOf (updateInstance p.activeInstances inst.id
          (fun i => incrementPageCount i now))).Nodup
      rw [hidsacts]
      exact hnd
    · intro a ha
      simp only [PuppeteerPool.tracked, idsOf_append, List.mem_append] at ha
      show a < p.browserCounter
      rcases ha with (hm | hm) | hm
      · rw [hidsacts] at hm
        exact hlt' a (Or.inl hm)
      · exact hlt' a (Or.inr (Or.inl hm))
      · exact hlt' a (Or.inr (Or.inr hm))
    · intro a ha
      have ha' : a ∈ idsOf (updateInstance p.activeInstances inst.id
          (fun i => incrementPageCount i now)) := ha
      rw [hidsacts] at ha'
      show a ∉ idsOf (p.retiredInstances ++ p.deadInstances)
      exact hdisj a ha'

theorem hlt_cases {p : PuppeteerPool}
    (hlt : ∀ a ∈ idsOf p.tracked, a < p.browserCounter) :
    ∀ a, a ∈ idsOf p.activeInstances ∨ a ∈ idsOf p.retiredInstances ∨
      a ∈ idsOf p.deadInstances → a < p.browserCounter :=
  fun a ha => hlt a (idsOf_tracked_mem.mpr ha)

theorem closePage_WF {p : PuppeteerPool} (h : PoolWF p) (instId : Nat) :
    PoolWF (p.closePage instId) := by
  obtain ⟨hbelow, hnd, hlt, hdisj⟩ := h
  have hact : idsOf (updateInstance p.activeInstances instId
      (fun i => { i with activePages := i.activePages - 1 })) = idsOf p.activeInstances :=
    idsOf_updateInstance _ _ _ (fun i => rfl)
  have hret : idsOf (updateInstance p.retiredInstances instId
      (fun i => { i with activePages := i.activePages - 1 })) = idsOf p.retiredInstances :=
    idsOf_updateInstance _ _ _ (fun i => rfl)
  refine ⟨?_, ?_, ?_, ?_⟩
  · intro j hj
    have hj' : j ∈ updateInstance p.activeInstances instId
        (fun i => { i with activePages := i.activePages - 1 }) := hj
    show j.totalPages < p.retireInstanceAfterRequestCount
    rcases mem_updateInstance hj' with ⟨i, hi, hcase⟩
    rcases hcase with rfl | ⟨rfl, _⟩
    · exact hbelow _ hi
    · exact hbelow i hi
  · show (idsOf (updateInstance p.activeInstances instId
        (fun i => { i with activePages := i.activePages - 1 }))).Nodup
    rw [hact]
    exact hnd
  · intro a ha
    simp only [PuppeteerPool.closePage, PuppeteerPool.tracked, idsOf_append,
      List.mem_append] at ha
    show a < p.browserCounter
    rcases ha with (hm | hm) | hm
    · rw [hact] at hm
      exact hlt_cases hlt a (Or.inl hm)
    · rw [hret] at hm
      exact hlt_cases hlt a (Or.inr (Or.inl hm))
    · exact hlt_cases hlt a (Or.inr (Or.inr hm))
  · intro a ha hmem
    have ha2 : a ∈ idsOf (updateInstance p.activeInstances instId
        (fun i => { i with activePages := i.activePages - 1 })) := ha
    rw [hact] at ha2
    have hmem2 : a ∈ idsOf (updateInstance p.retiredInstances instId
        (fun i => { i with activePages := i.activePages - 1 }) ++ p.deadInstances) := hmem
    rw [idsOf_append, List.mem_append] at hmem2
    rcases hmem2 with hm | hm
    · rw [hret] at hm
      exact hdisj a ha2 (mem_idsOf_retired_dead.mpr (Or.inl hm))
    · exact hdisj a ha2 (mem_idsOf_retired_dead.mpr (Or.inr hm))

theorem retireInstance_WF {p : PuppeteerPool} (h : PoolWF p) (instId : Nat) :
    PoolWF (p._retireInstance instId) := by
  obtain ⟨hbelow, hnd, hlt, hdisj⟩ := h
  unfold PuppeteerPool._retireInstance
  cases hf : p.activeInstances.find? (fun i => i.id == instId) with
  | none => exact ⟨hbelow, hnd, hlt, hdisj⟩
  | some inst2 =>
    have hinst2id : inst2.id = instId := by
      have := List.find?_some hf
      simpa using this
    have hinst2mem : inst2 ∈ p.activeInstances := List.mem_of_find?_eq_some hf
    refine ⟨?_, ?_, ?_, ?_⟩
    · intro j hj
      show j.totalPages < p.retireInstanceAfterRequestCount
      exact hbelow _ (List.mem_filter.mp hj).1
    · show (idsOf (p.activeInstances.filter (fun i => !(i.id == instId)))).Nodup
      exact hnd.sublist ((List.filter_sublist _).map _)
    · intro a ha
      simp only [PuppeteerPool.tracked, idsOf_append, List.mem_append] at ha
      show a < p.browserCounter
      rcases ha with (hm | hm | hm) | hm
      · exact hlt_cases hlt a (Or.inl (idsOf_filter_subset _ _ a hm))
      · exact hlt_cases hlt a (Or.inr (Or.inl hm))
      · have : a = inst2.id := by
          rcases mem_idsOf.mp hm with ⟨i, hi, rfl⟩
          rw [List.mem_singleton] at hi
          rw [hi]
        rw [this]
        exact hlt_cases hlt _ (Or.inl (mem_idsOf.mpr ⟨inst2, hinst2mem, rfl⟩))
      · exact hlt_cases hlt a (Or.inr (Or.inr hm))
    · intro a ha hmem
      rcases mem_idsOf.mp ha with ⟨j, hj, rfl⟩
      have hj' := List.mem_filter.mp hj
      have hjid : ¬(j.id = instId) := by
        have := hj'.2
        simp at this
        exact this
      have hjact : j.id ∈ idsOf p.activeInstances := mem_idsOf.mpr ⟨j, hj'.1, rfl⟩
      rw [idsOf_append, List.mem_append] at hmem
      rcases hmem with hm | hm
      · rw [idsOf_append, List.mem_append] at hm
        rcases hm with hm | hm
        · exact hdisj _ hjact (mem_idsOf_retired_dead.mpr (Or.inl hm))
        · rcases mem_idsOf.mp hm with ⟨i, hi, hieq⟩
          rw [List.mem_singleton] at hi
          rw [hi, hinst2id] at hieq
          exact hjid hieq.symm
      · exact hdisj _ hjact (mem_idsOf_retired_dead.mpr (Or.inr hm))

theorem retireBrowserWithSession_WF {p : PuppeteerPool} (h : PoolWF p) (sid : Nat) :
    PoolWF (p._retireBrowserWithSession sid) := by
  obtain ⟨hbelow, hnd, hlt, hdisj⟩ := h
  refine ⟨?_, ?_, ?_, ?_⟩
  · intro j hj
    show j.totalPages < p.retireInstanceAfterRequestCount
    exact hbelow _ (List.mem_filter.mp hj).1
  · show (idsOf (p.activeInstances.filter (fun i => !(i.sessionId == sid)))).Nodup
    exact hnd.sublist ((List.filter_sublist _).map _)
  · intro a ha
    simp only [PuppeteerPool._retireBrowserWithSession, PuppeteerPool.tracked,
      idsOf_append, List.mem_append] at ha
    show a < p.browserCounter
    rcases ha with (hm | hm | hm) | hm
    · exact hlt_cases hlt a (Or.inl (idsOf_filter_subset _ _ a hm))
    · exact hlt_cases hlt a (Or.inr (Or.inl hm))
    · exact hlt_cases hlt a (Or.inl (idsOf_filter_subset _ _ a hm))
    · exact hlt_cases hlt a (Or.inr (Or.inr hm))
  · intro a ha hmem
    rcases mem_idsOf.mp ha with ⟨j, hj, rfl⟩
    have hj' := List.mem_filter.mp hj
    have hjsid : ¬(j.sessionId = sid) := by
      have := hj'.2
      simp at this
      exact this
    have hjact : j.id ∈ idsOf p.activeInstances := mem_idsOf.mpr ⟨j, hj'.1, rfl⟩
    have hmem2 : j.id ∈ idsOf ((p.retiredInstances ++
        p.activeInstances.filter (fun i => i.sessionId == sid)) ++ p.deadInstances) := hmem
    simp only [idsOf_append, List.mem_append] at hmem2
    rcases hmem2 with (hm | hm) | hm
    · exact hdisj _ hjact (mem_idsOf_retired_dead.mpr (Or.inl hm))
    · rcases mem_idsOf.mp hm with ⟨i, hi, hieq⟩
      have hi' := List.mem_filter.mp hi
      have : i = j := eq_of_same_id hnd hi'.1 hj'.1 hieq
      rw [this] at hi'
      have := hi'.2
      simp at this
      exact hjsid this
    · exact hdisj _ hjact (mem_idsOf_retired_dead.mpr (Or.inr hm))

theorem killRetiredInstances_WF {p : PuppeteerPool} (h : PoolWF p) (now : Nat) :
    PoolWF (p._killRetiredInstances now) := by
  obtain ⟨hbelow, hnd, hlt, hdisj⟩ := h
  refine ⟨?_, ?_, ?_, ?_⟩
  · intro j hj
    show j.totalPages < p.retireInstanceAfterRequestCount
    exact hbelow _ hj
  · exact hnd
  · intro a ha
    have ha' : a ∈ idsOf (p.activeInstances ++
        p.retiredInstances.filter
          (fun i => !(shouldKillRetired p.killInstanceAfterMillis now i)) ++
        (p.deadInstances ++
          (p.retiredInstances.filter
            (shouldKillRetired p.killInstanceAfterMillis now)).map killMark)) := ha
    simp only [idsOf_append, List.mem_append, idsOf_killMark_map] at ha'
    show a < p.browserCounter
    rcases ha' with (hm | hm) | hm | hm
    · exact hlt_cases hlt a (Or.inl hm)
    · exact hlt_cases hlt a (Or.inr (Or.inl (idsOf_filter_subset _ _ a hm)))
    · exact hlt_cases hlt a (Or.inr (Or.inr hm))
    · exact hlt_cases hlt a (Or.inr (Or.inl (idsOf_filter_subset _ _ a hm)))
  · intro a ha hmem
    have ha' : a ∈ idsOf p.activeInstances := ha
    have hmem2 : a ∈ idsOf (p.retiredInstances.filter
          (fun i => !(shouldKillRetired p.killInstanceAfterMillis now i)) ++
        (p.deadInstances ++
          (p.retiredInstances.filter
            (shouldKillRetired p.killInstanceAfterMillis now)).map killMark)) := hmem
    simp only [idsOf_append, List.mem_append, idsOf_killMark_map] at hmem2
    rcases hmem2 with hm | hm | hm
    · exact hdisj a ha' (mem_idsOf_retired_dead.mpr
        (Or.inl (idsOf_filter_subset _ _ a hm)))
    · exact hdisj a ha' (mem_idsOf_retired_dead.mpr (Or.inr hm))
    · exact hdisj a ha' (mem_idsOf_retired_dead.mpr
        (Or.inl (idsOf_filter_subset _ _ a hm)))

theorem launch_tabOn_WF {p : PuppeteerPool} (h : PoolWF p) (sid now : Nat) :
    PoolWF (((p._launchInstance sid now).2)._tabOn (p._launchInstance sid now).1 now) := by
  obtain ⟨hbelow, hnd, hlt, hdisj⟩ := h
  have e1 : (p._launchInstance sid now).1 = launchedInstance p sid now := rfl
  have e2 : (p._launchInstance sid now).2 =
      { p with browserCounter := p.browserCounter + 1,
               activeInstances := p.activeInstances ++ [launchedInstance p sid now] } := rfl
  rw [e1, e2]
  apply tabOn_WF
  · exact List.mem_append.mpr (Or.inr (List.mem_singleton.mpr rfl))
  · intro j hj hid
    have hj' : j ∈ p.activeInstances ++ [launchedInstance p sid now] := hj
    rcases List.mem_append.mp hj' with hja | hjs
    · exfalso
      have hlt2 : j.id < p.browserCounter :=
        hlt_cases hlt _ (Or.inl (mem_idsOf.mpr ⟨j, hja, rfl⟩))
      rw [hid] at hlt2
      simp [launchedInstance] at hlt2
    · rw [List.mem_singleton] at hjs
      exact hjs
  · intro j hj hid
    have hj' : j ∈ p.activeInstances ++ [launchedInstance p sid now] := hj
    show j.totalPages < p.retireInstanceAfterRequestCount
    rcases List.mem_append.mp hj' with hja | hjs
    · exact hbelow j hja
    · exfalso
      rw [List.mem_singleton] at hjs
      rw [hjs] at hid
      exact hid rfl
  · show (idsOf (p.activeInstances ++ [launchedInstance p sid now])).Nodup
    rw [idsOf_append, List.nodup_append]
    refine ⟨hnd, List.nodup_singleton _, ?_⟩
    intro a ha hb
    rcases mem_idsOf.mp hb with ⟨i, hi, rfl⟩
    rw [List.mem_singleton] at hi
    have hlt2 := hlt_cases hlt _ (Or.inl ha)
    rw [hi] at hlt2
    simp [launchedInstance] at hlt2
  · intro a ha
    have ha' : a ∈ idsOf ((p.activeInstances ++ [launchedInstance p sid now]) ++
        p.retiredInstances ++ p.deadInstances) := ha
    simp only [idsOf_append, List.mem_append] at ha'
    show a < p.browserCounter + 1
    rcases ha' with ((hm | hm) | hm) | hm
    · have := hlt_cases hlt a (Or.inl hm)
      omega
    · rcases mem_idsOf.mp hm with ⟨i, hi, rfl⟩
      rw [List.mem_singleton] at hi
      rw [hi]
      simp [launchedInstance]
    · have := hlt_cases hlt a (Or.inr (Or.inl hm))
      omega
    · have := hlt_cases hlt a (Or.inr (Or.inr hm))
      omega
  · intro a ha
    have ha' : a ∈ idsOf (p.activeInstances ++ [launchedInstance p sid now]) := ha
    rw [idsOf_append, List.mem_append] at ha'
    show a ∉ idsOf (p.retiredInstances ++ p.deadInstances)
    rcases ha' with hm | hm
    · exact hdisj a hm
    · rcases mem_idsOf.mp hm with ⟨i, hi, rfl⟩
      rw [List.mem_singleton] at hi
      rw [hi]
      intro hc
      rw [mem_idsOf_retired_dead] at hc
      have := hlt_cases hlt _ (Or.inr hc)
      simp [launchedInstance] at this

theorem newPage_WF {sys : System} (h : PoolWF sys.bp) (r now : Nat) :
    PoolWF ((sys.newPageWithInst r now).2).bp := by
  unfold System.newPageWithInst
  cases hfind : sys.bp.activeInstances.find?
      (fun i => decide (i.activePages < sys.bp.maxOpenPagesPerInstance)) with
  | some inst =>
    have hinst : inst ∈ sys.bp.activeInstances := List.mem_of_find?_eq_some hfind
    exact tabOn_WF hinst
      (fun j hj hid => eq_of_same_id h.activeNodup hj hinst hid)
      (fun j hj _ => h.activeBelow j hj)
      h.activeNodup h.idsLt h.activeDisj
  | none =>
    cases hg : sys.sp.getSession r now with
    | none => exact h
    | some res =>
      obtain ⟨sess, sp2⟩ := res
      exact launch_tabOn_WF h sess.id now

theorem applyOp_PoolWF (op : SysOp) (sys : System) (h : PoolWF sys.bp) :
    PoolWF (applyOp op sys).bp := by
  cases op with
  | newPage r now => exact newPage_WF h r now
  | closeTab instId => exact closePage_WF h instId
  | retireBrowser instId => exact retireInstance_WF h instId
  | retireSess sid => exact retireBrowserWithSession_WF h sid
  | markGoodOp sid => exact h
  | markBadOp sid => exact h
  | sweep now => exact killRetiredInstances_WF h now

theorem applyOps_PoolWF (ops : List SysOp) : ∀ sys : System,
    PoolWF sys.bp → PoolWF (applyOps ops sys).bp := by
  induction ops with
  | nil => intro sys h; exact h
  | cons op t ih => intro sys h; exact ih (applyOp op sys) (applyOp_PoolWF op sys h)

theorem reachable_PoolWF {sys : System} (h : Reachable sys) : PoolWF sys.bp := by
  obtain ⟨n, opts, mp, ra, ka, ops, rfl⟩ := h
  apply applyOps_PoolWF
  refine ⟨?_, ?_, ?_, ?_⟩
  · intro i hi
    simp [initSystem, mkPuppeteerPool] at hi
  · simp [initSystem, mkPuppeteerPool, idsOf]
  · intro a ha
    simp [initSystem, mkPuppeteerPool, PuppeteerPool.tracked, idsOf] at ha
  · intro a ha
    simp [initSystem, mkPuppeteerPool, idsOf] at ha

/-- Claim C4: once an instance's lifetime tab count has reached
`retireInstanceAfterRequestCount` it is never in the active map — it has
been retired (or already killed) and accepts no new tabs: every
subsequent `newPage()` assigns its tab to a different instance (by id),
even when the retired instance's active tab count is below
`maxOpenPagesPerInstance`; its existing tabs may still finish. -/
theorem limitReachedNoNewTabs (sys : System) (h : Reachable sys) :
    (∀ i ∈ sys.bp.activeInstances,
        i.totalPages < sys.bp.retireInstanceAfterRequestCount) ∧
    (∀ i, i ∈ sys.bp.tracked →
        sys.bp.retireInstanceAfterRequestCount ≤ i.totalPages →
        (i ∈ sys.bp.retiredInstances ∨ i ∈ sys.bp.deadInstances) ∧
        (∀ (r now : Nat) (inst : PuppeteerInstance) (sys2 : System),
            sys.newPageWithInst r now = (some inst, sys2) → inst.id ≠ i.id)) := by
  have wf := reachable_PoolWF h
  refine ⟨wf.activeBelow, ?_⟩
  intro i hi hlim
  have hnotact : i ∉ sys.bp.activeInstances := by
    intro hact
    have := wf.activeBelow i hact
    omega
  have hird : i ∈ sys.bp.retiredInstances ∨ i ∈ sys.bp.deadInstances := by
    unfold PuppeteerPool.tracked at hi
    rcases List.mem_append.mp hi with hm | hm
    · rcases List.mem_append.mp hm with hm2 | hm2
      · exact absurd hm2 hnotact
      · exact Or.inl hm2
    · exact Or.inr hm
  refine ⟨hird, ?_⟩
  intro r now inst sys2 heq heqid
  unfold System.newPageWithInst at heq
  cases hfind : sys.bp.activeInstances.find?
      (fun k => decide (k.activePages < sys.bp.maxOpenPagesPerInstance)) with
  | some inst0 =>
    simp only [hfind] at heq
    have hinst : inst0 = inst := by
      have := congrArg Prod.fst heq
      simpa using this
    apply wf.activeDisj inst.id
      (mem_idsOf.mpr ⟨inst0, List.mem_of_find?_eq_some hfind, by rw [hinst]⟩)
    rw [heqid]
    rcases hird with hm | hm
    · exact mem_idsOf_retired_dead.mpr (Or.inl (mem_idsOf.mpr ⟨i, hm, rfl⟩))
    · exact mem_idsOf_retired_dead.mpr (Or.inr (mem_idsOf.mpr ⟨i, hm, rfl⟩))
  | none =>
    simp only [hfind] at heq
    cases hg : sys.sp.getSession r now with
    | none =>
      simp only [hg] at heq
      have := congrArg Prod.fst heq
      simp at this
    | some res =>
      obtain ⟨sess, sp2⟩ := res
      simp only [hg, PuppeteerPool._launchInstance] at heq
      have hinst : launchedInstance sys.bp sess.id now = inst := by
        have := congrArg Prod.fst heq
        simpa using this
      have hlt2 : i.id < sys.bp.browserCounter :=
        wf.idsLt i.id (mem_idsOf.mpr ⟨i, hi, rfl⟩)
      rw [← heqid, ← hinst] at hlt2
      simp [launchedInstance] at hlt2

/-- Witness for claim C4: in a reachable state whose single instance hit
the threshold of 1 lifetime tab, that instance sits in the retired map. -/
theorem limitReachedNoNewTabs_witness :
    (instLimitHit ∈ sysLimitHit.bp.tracked ∧
     sysLimitHit.bp.retireInstanceAfterRequestCount ≤ instLimitHit.totalPages) ∧
    (instLimitHit ∈ sysLimitHit.bp.retiredInstances ∨
     instLimitHit ∈ sysLimitHit.bp.deadInstances) := by
  have h := limitReachedNoNewTabs sysLimitHit
    ⟨1, defaultSessionOptions, 1, 1, 300, [SysOp.newPage 0 0], rfl⟩
  exact ⟨⟨by decide, by decide⟩, (h.2 instLimitHit (by decide) (by decide)).1⟩

/-! Session-id freshness and the retired-session cascade invariant. -/

theorem retired_not_usable {s : Session} (h : s.retired = true) (now : Nat) :
    s.isUsable now = false := by
  simp [Session.isUsable, h]

theorem getSession_SpWF {p : SessionPool} {r now : Nat} {sess : Session}
    {p2 : SessionPool} (h : ∀ s ∈ p.sessions, s.id < p.nextSessionId)
    (hg : p.getSession r now = some (sess, p2)) :
    (∀ s ∈ p2.sessions, s.id < p2.nextSessionId) ∧
    p.nextSessionId ≤ p2.nextSessionId := by
  rcases getSession_eq_cases hg with ⟨_, hc⟩ | ⟨_, picked, hpick, hrest⟩
  · have hp2 : p2 = (p._createSession now).2 := by rw [← hc]
    rw [hp2]
    have e1 : (p._createSession now).2.sessions =
        p.sessions ++ [p._defaultCreateSessionFunction now] := rfl
    have e2 : (p._createSession now).2.nextSessionId = p.nextSessionId + 1 := rfl
    rw [e1, e2]
    refine ⟨?_, by omega⟩
    intro s hs
    rcases List.mem_append.mp hs with hm | hm
    · have := h s hm
      omega
    · rw [List.mem_singleton] at hm
      rw [hm]
      show p.nextSessionId < p.nextSessionId + 1
      omega
  · rcases hrest with ⟨_, _, hp2⟩ | ⟨_, hc⟩
    · rw [hp2]
      exact ⟨h, Nat.le_refl _⟩
    · have hp2 : p2 = ((p._removeSession picked)._createSession now).2 := by rw [← hc]
      rw [hp2]
      have e1 : ((p._removeSession picked)._createSession now).2.sessions =
          p.sessions.eraseP (fun t => t.id == picked.id) ++
            [(p._removeSession picked)._defaultCreateSessionFunction now] := rfl
      have e2 : ((p._removeSession picked)._createSession now).2.nextSessionId =
          p.nextSessionId + 1 := rfl
      rw [e1, e2]
      refine ⟨?_, by omega⟩
      intro s hs
      rcases List.mem_append.mp hs with hm | hm
      · have := h s ((List.eraseP_sublist _).subset hm)
        omega
      · rw [List.mem_singleton] at hm
        rw [hm]
        show p.nextSessionId < p.nextSessionId + 1
        omega

theorem applyOp_SpWF (op : SysOp) (sys : System) (h : SpWF sys) :
    SpWF (applyOp op sys) := by
  cases op with
  | newPage r now =>
    show SpWF (sys.newPageWithInst r now).2
    unfold System.newPageWithInst
    cases hfind : sys.bp.activeInstances.find?
        (fun i => decide (i.activePages < sys.bp.maxOpenPagesPerInstance)) with
    | some inst => exact h
    | none =>
      cases hg : sys.sp.getSession r now with
      | none => exact h
      | some res =>
        obtain ⟨sess, sp2⟩ := res
        exact (getSession_SpWF h hg).1
  | closeTab instId => exact h
  | retireBrowser instId => exact h
  | retireSess sid =>
    intro s hs
    rcases List.mem_map.mp hs with ⟨t, ht, rfl⟩
    show (if t.id == sid then t.retire else t).id < sys.sp.nextSessionId
    by_cases hc : (t.id == sid) = true
    · rw [if_pos hc]
      exact h t ht
    · rw [if_neg hc]
      exact h t ht
  | markGoodOp sid =>
    intro s hs
    rcases List.mem_map.mp hs with ⟨t, ht, rfl⟩
    show (if t.id == sid then t.markGood else t).id < sys.sp.nextSessionId
    by_cases hc : (t.id == sid) = true
    · rw [if_pos hc]
      exact h t ht
    · rw [if_neg hc]
      exact h t ht
  | markBadOp sid =>
    intro s hs
    rcases List.mem_map.mp hs with ⟨t, ht, rfl⟩
    show (if t.id == sid then t.markBad else t).id < sys.sp.nextSessionId
    by_cases hc : (t.id == sid) = true
    · rw [if_pos hc]
      exact h t ht
    · rw [if_neg hc]
      exact h t ht
  | sweep now => exact h

theorem applyOps_SpWF (ops : List SysOp) : ∀ sys : System,
    SpWF sys → SpWF (applyOps ops sys) := by
  induction ops with
  | nil => intro sys h; exact h
  | cons op t ih => intro sys h; exact ih (applyOp op sys) (applyOp_SpWF op sys h)

theorem reachable_SpWF {sys : System} (h : Reachable sys) : SpWF sys := by
  obtain ⟨n, opts, mp, ra, ka, ops, rfl⟩ := h
  apply applyOps_SpWF
  intro s hs
  simp [initSystem, mkSessionPool, SessionPool.initPool,
    SessionPool._maybeLoadSessionPool] at hs

theorem retireInstance_active_subset {p : PuppeteerPool} {instId : Nat}
    {j : PuppeteerInstance}
    (hj : j ∈ (p._retireInstance instId).activeInstances) :
    j ∈ p.activeInstances := by
  unfold PuppeteerPool._retireInstance at hj
  split at hj
  · exact hj
  · exact (List.mem_filter.mp hj).1

theorem tabOn_active_sessionId {p : PuppeteerPool} {inst : PuppeteerInstance}
    {now : Nat} {j : PuppeteerInstance}
    (hj : j ∈ (p._tabOn inst now).activeInstances) :
    ∃ i ∈ p.activeInstances, j.sessionId = i.sessionId := by
  have main : ∀ {l : List PuppeteerInstance},
      j ∈ updateInstance l inst.id (fun i => incrementPageCount i now) →
      ∃ i ∈ l, j.sessionId = i.sessionId := by
    intro l hl
    rcases mem_updateInstance hl with ⟨i, hi, hcase⟩
    rcases hcase with rfl | ⟨rfl, _⟩
    · exact ⟨_, hi, rfl⟩
    · exact ⟨i, hi, rfl⟩
  unfold PuppeteerPool._tabOn at hj
  split at hj
  · have hj' : j ∈ ((withActive p (updateInstance p.activeInstances inst.id
        (fun i => incrementPageCount i now)))._retireInstance inst.id).activeInstances := hj
    have hj2 : j ∈ (withActive p (updateInstance p.activeInstances inst.id
        (fun i => incrementPageCount i now))).activeInstances :=
      retireInstance_active_subset hj'
    exact main hj2
  · have hj2 : j ∈ updateInstance p.activeInstances inst.id
        (fun i => incrementPageCount i now) := hj
    exact main hj2

theorem getSession_SidInv {p : SessionPool} {r now sid : Nat} {sess : Session}
    {p2 : SessionPool}
    (hlt : sid < p.nextSessionId)
    (hret : ∀ s ∈ p.sessions, s.id = sid → s.retired = true)
    (hg : p.getSession r now = some (sess, p2)) :
    sid < p2.nextSessionId ∧
    (∀ s ∈ p2.sessions, s.id = sid → s.retired = true) ∧
    sess.id ≠ sid := by
  rcases getSession_eq_cases hg with ⟨_, hc⟩ | ⟨_, picked, hpick, hrest⟩
  · have hp2 : p2 = (p._createSession now).2 := by rw [← hc]
    have hs1 : sess = (p._createSession now).1 := by rw [← hc]
    refine ⟨?_, ?_, ?_⟩
    · rw [hp2]
      show sid < p.nextSessionId + 1
      omega
    · rw [hp2]
      intro s hs hsid
      have hs' : s ∈ p.sessions ++ [p._defaultCreateSessionFunction now] := hs
      rcases List.mem_append.mp hs' with hm | hm
      · exact hret s hm hsid
      · exfalso
        rw [List.mem_singleton] at hm
        rw [hm] at hsid
        have : p.nextSessionId = sid := hsid
        omega
    · rw [hs1]
      show p.nextSessionId ≠ sid
      omega
  · rcases hrest with ⟨hu, hsess, hp2⟩ | ⟨hu, hc⟩
    · refine ⟨by rw [hp2]; exact hlt, by rw [hp2]; exact hret, ?_⟩
      intro hcontra
      rw [hsess] at hcontra
      have hr := hret picked (mem_of_pickSession hpick) hcontra
      rw [retired_not_usable hr now] at hu
      cases hu
    · have hp2 : p2 = ((p._removeSession picked)._createSession now).2 := by rw [← hc]
      have hs1 : sess = ((p._removeSession picked)._createSession now).1 := by rw [← hc]
      refine ⟨?_, ?_, ?_⟩
      · rw [hp2]
        show sid < p.nextSessionId + 1
        omega
      · rw [hp2]
        intro s hs hsid
        have hs' : s ∈ p.sessions.eraseP (fun t => t.id == picked.id) ++
            [(p._removeSession picked)._defaultCreateSessionFunction now] := hs
        rcases List.mem_append.mp hs' with hm | hm
        · exact hret s ((List.eraseP_sublist _).subset hm) hsid
        · exfalso
          rw [List.mem_singleton] at hm
          rw [hm] at hsid
          have : p.nextSessionId = sid := hsid
          omega
      · rw [hs1]
        show p.nextSessionId ≠ sid
        omega

theorem applyOp_SidInv (op : SysOp) (sys : System) (sid : Nat)
    (h : SidInv sid sys) : SidInv sid (applyOp op sys) := by
  obtain ⟨hlt, hret, hact⟩ := h
  cases op with
  | newPage r now =>
    show SidInv sid (sys.newPageWithInst r now).2
    unfold System.newPageWithInst
    cases hfind : sys.bp.activeInstances.find?
        (fun i => decide (i.activePages < sys.bp.maxOpenPagesPerInstance)) with
    | some inst =>
      refine ⟨hlt, hret, ?_⟩
      intro i hi
      have hi' : i ∈ (sys.bp._tabOn inst now).activeInstances := hi
      rcases tabOn_active_sessionId hi' with ⟨k, hk, hks⟩
      rw [hks]
      exact hact k hk
    | none =>
      cases hg : sys.sp.getSession r now with
      | none => exact ⟨hlt, hret, hact⟩
      | some res =>
        obtain ⟨sess, sp2⟩ := res
        obtain ⟨hlt2, hret2, hsess⟩ := getSession_SidInv hlt hret hg
        refine ⟨hlt2, hret2, ?_⟩
        intro i hi
        have hi' : i ∈ ((sys.bp._launchInstance sess.id now).2._tabOn
            (sys.bp._launchInstance sess.id now).1 now).activeInstances := hi
        rcases tabOn_active_sessionId hi' with ⟨k, hk, hks⟩
        have hk' : k ∈ sys.bp.activeInstances ++
            [launchedInstance sys.bp sess.id now] := hk
        rcases List.mem_append.mp hk' with hm | hm
        · rw [hks]
          exact hact k hm
        · rw [List.mem_singleton] at hm
          rw [hks, hm]
          show sess.id ≠ sid
          exact hsess
  | closeTab instId =>
    refine ⟨hlt, hret, ?_⟩
    intro i hi
    have hi' : i ∈ updateInstance sys.bp.activeInstances instId
        (fun k => { k with activePages := k.activePages - 1 }) := hi
    rcases mem_updateInstance hi' with ⟨k, hk, hcase⟩
    rcases hcase with rfl | ⟨rfl, _⟩
    · exact hact _ hk
    · exact hact k hk
  | retireBrowser instId =>
    refine ⟨hlt, hret, ?_⟩
    intro i hi
    have hsub : i ∈ sys.bp.activeInstances := by
      have hi' : i ∈ (sys.bp._retireInstance instId).activeInstances := hi
      unfold PuppeteerPool._retireInstance at hi'
      split at hi'
      · exact hi'
      · exact (List.mem_filter.mp hi').1
    exact hact i hsub
  | retireSess sid2 =>
    refine ⟨hlt, ?_, ?_⟩
    · intro s hs hsid
      rcases List.mem_map.mp hs with ⟨t, ht, rfl⟩
      by_cases hc : (t.id == sid2) = true
      · rw [if_pos hc]
        rfl
      · rw [if_neg hc] at hsid ⊢
        exact hret t ht hsid
    · intro i hi
      have hi' : i ∈ sys.bp.activeInstances.filter
          (fun k => !(k.sessionId == sid2)) := hi
      exact hact i (List.mem_filter.mp hi').1
  | markGoodOp sid2 =>
    refine ⟨hlt, ?_, hact⟩
    intro s hs hsid
    rcases List.mem_map.mp hs with ⟨t, ht, rfl⟩
    by_cases hc : (t.id == sid2) = true
    · rw [if_pos hc] at hsid ⊢
      have hid : t.id = sid := hsid
      show t.retired = true
      exact hret t ht hid
    · rw [if_neg hc] at hsid ⊢
      exact hret t ht hsid
  | markBadOp sid2 =>
    refine ⟨hlt, ?_, hact⟩
    intro s hs hsid
    rcases List.mem_map.mp hs with ⟨t, ht, rfl⟩
    by_cases hc : (t.id == sid2) = true
    · rw [if_pos hc] at hsid ⊢
      have hid : t.id = sid := hsid
      show t.retired = true
      exact hret t ht hid
    · rw [if_neg hc] at hsid ⊢
      exact hret t ht hsid
  | sweep now => exact ⟨hlt, hret, hact⟩

theorem applyOps_SidInv (sid : Nat) (ops : List SysOp) : ∀ sys : System,
    SidInv sid sys → SidInv sid (applyOps ops sys) := by
  induction ops with
  | nil => intro sys h; exact h
  | cons op t ih => intro sys h; exact ih (applyOp op sys) (applyOp_SidInv op sys sid h)

theorem retireSess_establishes_SidInv (sys : System) (sid : Nat)
    (hsp : SpWF sys) (hex : ∃ s ∈ sys.sp.sessions, s.id = sid) :
    SidInv sid (applyOp (SysOp.retireSess sid) sys) := by
  obtain ⟨s0, hs0, hid0⟩ := hex
  refine ⟨?_, ?_, ?_⟩
  · show sid < sys.sp.nextSessionId
    rw [← hid0]
    exact hsp s0 hs0
  · intro s hs hsid
    rcases List.mem_map.mp hs with ⟨t, ht, rfl⟩
    by_cases hc : (t.id == sid) = true
    · rw [if_pos hc]
      rfl
    · exfalso
      rw [if_neg hc] at hsid
      exact hc (by simp [hsid])
  · intro i hi
    have hi' : i ∈ sys.bp.activeInstances.filter
        (fun k => !(k.sessionId == sid)) := hi
    have := (List.mem_filter.mp hi').2
    simp at this
    exact this

/-- Claim C6: retiring a session cascades to the browser pool — every
active instance bound to it moves to the retired map at once, no state
reachable afterwards ever has an active instance bound to it, and no
subsequent `newPage()` assigns a tab to an instance bound to it (tabs are
only ever opened on instances of the active map).  In particular, with
the session bound to two live instances both are retired, and a
subsequent sweep kills both once their tabs close. -/
theorem retiredSessionCascade (sys : System) (sid : Nat)
    (h : Reachable sys) (hex : ∃ s ∈ sys.sp.sessions, s.id = sid) :
    (∀ i ∈ sys.bp.activeInstances, i.sessionId = sid →
        i ∈ (applyOp (SysOp.retireSess sid) sys).bp.retiredInstances) ∧
    (∀ ops : List SysOp,
        ∀ i ∈ (applyOps ops (applyOp (SysOp.retireSess sid) sys)).bp.activeInstances,
          i.sessionId ≠ sid) ∧
    (∀ (ops : List SysOp) (r now : Nat) (inst : PuppeteerInstance) (sys2 : System),
        (applyOps ops (applyOp (SysOp.retireSess sid) sys)).newPageWithInst r now
          = (some inst, sys2) → inst.sessionId ≠ sid) ∧
    ((applyOp (SysOp.retireSess 0) sysTwoBound).bp.retiredInstances
        = [instBound1, instBound2] ∧
      (applyOps [SysOp.closeTab 0, SysOp.closeTab 1, SysOp.sweep 10]
          (applyOp (SysOp.retireSess 0) sysTwoBound)).bp.retiredInstances = [] ∧
      (applyOps [SysOp.closeTab 0, SysOp.closeTab 1, SysOp.sweep 10]
          (applyOp (SysOp.retireSess 0) sysTwoBound)).bp.activeInstances = [] ∧
      (∀ i ∈ (applyOps [SysOp.closeTab 0, SysOp.closeTab 1, SysOp.sweep 10]
          (applyOp (SysOp.retireSess 0) sysTwoBound)).bp.deadInstances,
        i.killed = true)) := by
  have hbase : SidInv sid (applyOp (SysOp.retireSess sid) sys) :=
    retireSess_establishes_SidInv sys sid (reachable_SpWF h) hex
  refine ⟨?_, ?_, ?_, by decide, by decide, by decide, by decide⟩
  · intro i hi hisid
    show i ∈ sys.bp.retiredInstances ++
      sys.bp.activeInstances.filter (fun k => k.sessionId == sid)
    exact List.mem_append.mpr (Or.inr (List.mem_filter.mpr ⟨hi, by simp [hisid]⟩))
  · intro ops i hi
    exact (applyOps_SidInv sid ops _ hbase).2.2 i hi
  · intro ops r now inst sys2 heq
    obtain ⟨hlt2, hret2, hact2⟩ := applyOps_SidInv sid ops _ hbase
    unfold System.newPageWithInst at heq
    cases hfind : (applyOps ops (applyOp (SysOp.retireSess sid) sys)).bp.activeInstances.find?
        (fun i => decide (i.activePages <
          (applyOps ops (applyOp (SysOp.retireSess sid) sys)).bp.maxOpenPagesPerInstance)) with
    | some inst0 =>
      simp only [hfind] at heq
      have hinst : inst0 = inst := by
        have := congrArg Prod.fst heq
        simpa using this
      rw [← hinst]
      exact hact2 inst0 (List.mem_of_find?_eq_some hfind)
    | none =>
      simp only [hfind] at heq
      cases hg : (applyOps ops (applyOp (SysOp.retireSess sid) sys)).sp.getSession r now with
      | none =>
        simp only [hg] at heq
        have := congrArg Prod.fst heq
        simp at this
      | some res =>
        obtain ⟨sess, sp2⟩ := res
        simp only [hg, PuppeteerPool._launchInstance] at heq
        have hinst : launchedInstance
            (applyOps ops (applyOp (SysOp.retireSess sid) sys)).bp sess.id now = inst := by
          have := congrArg Prod.fst heq
          simpa using this
        have hsess := (getSession_SidInv hlt2 hret2 hg).2.2
        rw [← hinst]
        show sess.id ≠ sid
        exact hsess

/-- Witness for claim C6 at a concrete reachable state: session 0 exists
and its single bound instance lands in the retired map on the cascade. -/
theorem retiredSessionCascade_witness :
    (∃ s ∈ sysOnePage.sp.sessions, s.id = 0) ∧
    instOnePage ∈ (applyOp (SysOp.retireSess 0) sysOnePage).bp.retiredInstances := by
  have hex : ∃ s ∈ sysOnePage.sp.sessions, s.id = 0 := by decide
  have h := retiredSessionCascade sysOnePage 0
    ⟨1, defaultSessionOptions, 1, 100, 300, [SysOp.newPage 0 0], rfl⟩ hex
  exact ⟨hex, h.1 instOnePage (by decide) (by decide)⟩

end Apify
